import Mathlib

/-!
Shallow embedding of the TFX metadata/caching layer
(src/tfx/orchestration/metadata.py) and proofs about its cache lookup,
context registration, type resolution and publish/fetch round trips.

The external MLMD store is modelled as an in-memory record of lists
(`Store`), with every store call an explicit function on it; Python
exceptions become an `Except` whose error also carries the store at the
point of the raise (Python exceptions do not roll back prior writes).
Proto map fields become association lists compared extensionally.
-/

namespace TfxMeta

/-- Property kinds STRING/INT/DOUBLE of metadata_store_pb2. -/
inductive PropKind
  | STRING
  | INT
  | DOUBLE
deriving DecidableEq, Repr

/-- Python-level values handed to context registration
(metadata.py accepts Dict[Text, Union[int, float, Text]], but callers can
also pass None through PipelineInfo.run_id). Floats are opaque payloads:
the layer never computes with them, it only stores them. -/
inductive PyVal
  | pyInt (n : Int)
  | pyStr (s : String)
  | pyFloat (payload : Int)
  | pyNone
deriving DecidableEq, Repr

/-- Python runtime types, as dispatched on by property_type_mapping. -/
inductive PyType
  | int
  | bytes
  | str
  | float
  | noneType
deriving DecidableEq, Repr

def pyTypeOf : PyVal → PyType
  | .pyInt _ => .int
  | .pyStr _ => .str
  | .pyFloat _ => .float
  | .pyNone => .noneType

/-- The property_type_mapping dict of _register_context_if_not_exist;
absent keys mean a Python KeyError. -/
def property_type_mapping : PyType → Option PropKind
  | .int => some .INT
  | .bytes => some .STRING
  | .str => some .STRING
  | .float => some .DOUBLE
  | .noneType => none

/-- Proto map update: assignment to a map field replaces the entry. -/
def setEntry {κ β : Type} [DecidableEq κ] (d : List (κ × β)) (k : κ) (v : β) :
    List (κ × β) :=
  (k, v) :: d.filter (fun kv => kv.1 ≠ k)

/-- Execution/artifact property maps: every value this layer writes into an
execution property is a string (tf.compat.as_text of the original). -/
abbrev Props := List (String × String)

def getProp (ps : Props) (k : String) : Option String := ps.lookup k

def setProp (ps : Props) (k v : String) : Props := setEntry ps k v

/-- Python proto map equality: same key set, same values (order-free). -/
def propsEq (a b : Props) : Bool :=
  (a.map Prod.fst ++ b.map Prod.fst).all (fun k => getProp a k == getProp b k)

structure Execution where
  id : Int := 0
  type_id : Int := 0
  properties : Props := []
deriving DecidableEq, Repr

/-- Python == on Execution protos (map fields compare as maps). -/
def executionEq (a b : Execution) : Bool :=
  a.id == b.id && a.type_id == b.type_id && propsEq a.properties b.properties

inductive EventType
  | INPUT
  | DECLARED_INPUT
  | OUTPUT
deriving DecidableEq, Repr

/-- Event with its two path steps (steps[0].key, steps[1].index) flattened. -/
structure Event where
  artifact_id : Int
  execution_id : Int
  key : String
  index : Int
  type : EventType
deriving DecidableEq, Repr

/-- _prepare_event: builds an event with a two-step path. -/
def prepare_event (execution_id artifact_id : Int) (key : String) (index : Int)
    (event_type : EventType) : Event :=
  { artifact_id := artifact_id, execution_id := execution_id, key := key,
    index := index, type := event_type }

/-- A tfx Artifact together with its underlying MLMD proto: the id/type_id of
the proto plus the type name of the wrapper; id 0 means "no persisted id"
(proto int fields default to 0, and the source tests truthiness of .id). -/
structure Artifact where
  id : Int := 0
  type_id : Int := 0
  type_name : String := ""
  state : String := ""
deriving DecidableEq, Repr

structure ExecutionType where
  id : Int := 0
  name : String
  properties : List (String × PropKind) := []
deriving DecidableEq, Repr

structure ContextType where
  id : Int := 0
  name : String
  properties : List (String × PropKind) := []
deriving DecidableEq, Repr

/-- One context property value slot (the proto Value oneof). -/
inductive CtxPropVal
  | intValue (n : Int)
  | stringValue (s : String)
  | doubleValue (payload : Int)
deriving DecidableEq, Repr

structure Context where
  id : Int := 0
  type_id : Int := 0
  name : String
  properties : List (String × CtxPropVal) := []
deriving DecidableEq, Repr

/-- Modelled from the spec: the external metadata store ("a transactional
service exposing typed put/get operations over artifacts, executions,
contexts, events, and their type schemas"), as an in-memory record.
attributions are the (context id, execution id) links put_execution writes;
next_id is the store's id allocator (ids start at 1 and grow). -/
structure Store where
  artifacts : List Artifact := []
  executions : List Execution := []
  events : List Event := []
  contexts : List Context := []
  context_types : List ContextType := []
  execution_types : List ExecutionType := []
  artifact_types : List (String × Int) := []
  attributions : List (Int × Int) := []
  next_id : Int := 1
deriving DecidableEq, Repr

/-- Python exceptions this layer raises or observes. schemaConflictError is
the ValueError of _prepare_execution_type, which names the existing and the
attempted schema in its message. -/
inductive PyErr
  | runtimeError (msg : String)
  | valueError (msg : String)
  | assertionError (msg : String)
  | keyError
  | alreadyExistsError
  | schemaConflictError (existing attempted : ExecutionType)
deriving DecidableEq, Repr

/-- Result of a call: Python exceptions carry the store at the raise
(writes already made are not rolled back). -/
abbrev Res (α : Type) := Except (PyErr × Store) (α × Store)

/-! ### Store reads (each written against the singleton use in the source) -/

def get_execution_type (st : Store) (name : String) : Option ExecutionType :=
  st.execution_types.find? (fun e => e.name == name)

def get_events_by_execution_ids (st : Store) (execution_id : Int) : List Event :=
  st.events.filter (fun ev => ev.execution_id == execution_id)

def get_artifacts_by_id (st : Store) (artifact_id : Int) : List Artifact :=
  st.artifacts.filter (fun a => a.id == artifact_id)

def get_executions_by_id (st : Store) (execution_id : Int) : List Execution :=
  st.executions.filter (fun e => e.id == execution_id)

def get_executions_by_context (st : Store) (context_id : Int) : List Execution :=
  st.executions.filter (fun e =>
    st.attributions.any (fun p => p.1 == context_id && p.2 == e.id))

def get_context_by_type_and_name (st : Store) (type_name name : String) :
    Option Context :=
  match st.context_types.find? (fun t => t.name == type_name) with
  | none => none
  | some t => st.contexts.find? (fun c => c.type_id == t.id && c.name == name)

/-! ### Store writes (modelled from the spec at the store interface) -/

/-- Modelled from the spec: put_execution_type with can_add_fields — reuse or
grow a same-named schema ("an existing type may gain new optional properties
but never loses or retypes existing ones"), otherwise AlreadyExistsError. -/
def put_execution_type (st : Store) (t : ExecutionType) : Res Int :=
  match st.execution_types.find? (fun e => e.name == t.name) with
  | none =>
      let tid := st.next_id
      .ok (tid, { st with
        execution_types := st.execution_types ++ [{ t with id := tid }],
        next_id := st.next_id + 1 })
  | some e =>
      if e.properties.all (fun kv => t.properties.lookup kv.1 == some kv.2) then
        .ok (e.id, { st with
          execution_types := st.execution_types.map (fun e2 =>
            if e2.name == t.name then { t with id := e2.id } else e2) })
      else .error (.alreadyExistsError, st)

/-- Modelled from the spec: put_context_type with can_add_fields, same
grow-only contract as execution types. -/
def put_context_type (st : Store) (t : ContextType) : Res Int :=
  match st.context_types.find? (fun e => e.name == t.name) with
  | none =>
      let tid := st.next_id
      .ok (tid, { st with
        context_types := st.context_types ++ [{ t with id := tid }],
        next_id := st.next_id + 1 })
  | some e =>
      if e.properties.all (fun kv => t.properties.lookup kv.1 == some kv.2) then
        .ok (e.id, { st with
          context_types := st.context_types.map (fun e2 =>
            if e2.name == t.name then { t with id := e2.id } else e2) })
      else .error (.alreadyExistsError, st)

/-- Modelled from the spec: put_artifact_type with can_add_fields —
insert-or-reuse by type name, returning the type id. -/
def put_artifact_type (st : Store) (name : String) : Int × Store :=
  match st.artifact_types.lookup name with
  | some tid => (tid, st)
  | none =>
      (st.next_id, { st with
        artifact_types := st.artifact_types ++ [(name, st.next_id)],
        next_id := st.next_id + 1 })

/-- Modelled from the spec: put_artifacts — batch-writes artifacts, inserting
those without an id (assigning fresh ids) and updating those with one, and
returns the ids in order so the caller can copy them back. -/
def put_artifacts (st : Store) (l : List Artifact) : List Int × Store :=
  match l with
  | [] => ([], st)
  | a :: rest =>
      if a.id == 0 then
        let aid := st.next_id
        let st1 : Store := { st with
          artifacts := st.artifacts ++ [{ a with id := aid }],
          next_id := st.next_id + 1 }
        let (ids, st2) := put_artifacts st1 rest
        (aid :: ids, st2)
      else
        let st1 : Store := { st with
          artifacts := st.artifacts.map (fun b => if b.id == a.id then a else b) }
        let (ids, st2) := put_artifacts st1 rest
        (a.id :: ids, st2)

/-- Modelled from the spec: put_contexts — inserts each context, raising
AlreadyExistsError on a duplicate type/name pair. -/
def put_contexts (st : Store) : List Context → Except (PyErr × Store) (List Int × Store)
  | [] => .ok ([], st)
  | c :: rest =>
      if st.contexts.any (fun c2 => c2.type_id == c.type_id && c2.name == c.name) then
        .error (.alreadyExistsError, st)
      else
        match put_contexts { st with
            contexts := st.contexts ++ [{ c with id := st.next_id }],
            next_id := st.next_id + 1 } rest with
        | .error e => .error e
        | .ok (ids, st2) => .ok (st.next_id :: ids, st2)

/-- Modelled from the spec: put_execution — writes the execution (assigning a
fresh id), its (empty) event list and its context attributions in one call. -/
def put_execution (st : Store) (e : Execution) (contexts : List Context) :
    Int × Store :=
  let eid := st.next_id
  (eid, { st with
    executions := st.executions ++ [{ e with id := eid }],
    attributions := st.attributions ++ contexts.map (fun c => (c.id, eid)),
    next_id := st.next_id + 1 })

/-- Modelled from the spec: put_executions on an existing execution updates
the stored record with that id. -/
def put_executions (st : Store) (e : Execution) : Store :=
  { st with executions := st.executions.map (fun x => if x.id == e.id then e else x) }

def put_events (st : Store) (evs : List Event) : Store :=
  { st with events := st.events ++ evs }

/-! ### Constants of metadata.py -/

def MAX_EXECUTIONS_FOR_CACHE : Nat := 100

def EXECUTION_STATE_CACHED : String := "cached"

def EXECUTION_STATE_COMPLETE : String := "complete"

def EXECUTION_STATE_NEW : String := "new"

def CONTEXT_TYPE_PIPELINE : String := "pipeline"

def CONTEXT_TYPE_PIPELINE_RUN : String := "run"

def CONTEXT_TYPE_COMPONENT_RUN : String := "component_run"

def EXECUTION_TYPE_RESERVED_KEYS : List String :=
  ["checksum_md5", "pipeline_name", "pipeline_root", "run_id", "component_id"]

/-- Modelled from the spec: artifact lifecycle state PUBLISHED
(tfx.types.artifact.ArtifactState is not under src/). -/
def ARTIFACT_STATE_PUBLISHED : String := "published"

/-! ### Pipeline/component identity (modelled from the spec) -/

/-- Modelled from the spec: pipeline identity
(tfx.orchestration.data_types.PipelineInfo is not under src/): pipeline
name, root location, and an optional run id ("only created when a run id is
present"); context names are stable functions of this identity. -/
structure PipelineInfo where
  pipeline_name : String
  pipeline_root : String
  run_id : Option String := none
deriving DecidableEq, Repr

/-- Modelled from the spec: component identity
(tfx.orchestration.data_types.ComponentInfo is not under src/): the
component's execution type name and its id within the pipeline. -/
structure ComponentInfo where
  component_type : String
  component_id : String
deriving DecidableEq, Repr

/-- Python truthiness of an optional string (None and the empty string are
falsy). -/
def optTruthy : Option String → Bool
  | none => false
  | some s => s ≠ ""

/-- Modelled from the spec: "name derived from pipeline identity only". -/
def PipelineInfo.pipeline_context_name (p : PipelineInfo) : String :=
  p.pipeline_name

/-- Modelled from the spec: "name derived from pipeline identity + run id". -/
def PipelineInfo.pipeline_run_context_name (p : PipelineInfo) : String :=
  p.pipeline_name ++ "." ++ p.run_id.getD ""

/-- Modelled from the spec: "name derived from pipeline identity + run id +
component id". -/
def component_run_context_name (p : PipelineInfo) (c : ComponentInfo) : String :=
  p.pipeline_name ++ "." ++ p.run_id.getD "" ++ "." ++ c.component_id

/-- The PipelineInfo.run_id attribute as the Python value it carries:
a string, or None when absent. -/
def pyOfRunId : Option String → PyVal
  | some s => .pyStr s
  | none => .pyNone

/-- Modelled from the spec: the filesystem and content hash consulted for
the module-file checksum ("a content hash of that file's bytes");
fileContents name = none means tf.io.gfile.exists(name) is false. -/
structure Env where
  fileContents : String → Option String
  md5hex : String → String

/-! ### Execution type resolution (_prepare_execution_type) -/

/-- The ExecutionType record the else-branch of _prepare_execution_type
builds: state, the declared execution properties, conditionally
checksum_md5, then the four identifying keys, every kind STRING. -/
def builtExecutionType (type_name : String) (exec_properties : Props) :
    ExecutionType :=
  let ps := setEntry ([] : List (String × PropKind)) "state" .STRING
  let ps := exec_properties.foldl (fun acc kv => setEntry acc kv.1 .STRING) ps
  let ps := if (exec_properties.lookup "module_file").isSome then
      setEntry ps "checksum_md5" .STRING
    else ps
  let ps := setEntry ps "pipeline_name" .STRING
  let ps := setEntry ps "pipeline_root" .STRING
  let ps := setEntry ps "run_id" .STRING
  let ps := setEntry ps "component_id" .STRING
  { name := type_name, properties := ps }

/-- The except-NotFoundError branch of _prepare_execution_type: assert no
declared key is reserved, build the full schema, register it with
can_add_fields; an AlreadyExistsError from the store becomes the ValueError
naming both the existing and the attempted schema. -/
def register_new_execution_type (st : Store) (type_name : String)
    (exec_properties : Props) : Res Int :=
  match exec_properties.find? (fun kv => EXECUTION_TYPE_RESERVED_KEYS.contains kv.1) with
  | some kv =>
      .error (.assertionError ("execution properties with reserved key " ++ kv.1), st)
  | none =>
      let t := builtExecutionType type_name exec_properties
      match put_execution_type st t with
      | .ok (tid, st1) => .ok (tid, st1)
      | .error (_, st1) =>
          match get_execution_type st type_name with
          | some existing => .error (.schemaConflictError existing t, st1)
          | none => .error (.runtimeError "NameError", st1)

/-- _prepare_execution_type: reuse the existing type when its schema covers
every declared property key, otherwise register/evolve. -/
def prepare_execution_type (st : Store) (type_name : String)
    (exec_properties : Props) : Res Int :=
  match get_execution_type st type_name with
  | some existing =>
      if exec_properties.all (fun kv => (existing.properties.lookup kv.1).isSome) then
        .ok (existing.id, st)
      else register_new_execution_type st type_name exec_properties
  | none => register_new_execution_type st type_name exec_properties

/-! ### _prepare_execution -/

/-- The property map _prepare_execution builds: state first, then every
declared property as text, then the module-file checksum when the value is
truthy and the file exists, then the pipeline/component identity (run_id
only when truthy). -/
def executionProperties (env : Env) (state : String) (exec_properties : Props)
    (pipeline_info : PipelineInfo) (component_info : ComponentInfo) : Props :=
  let ps := setProp [] "state" state
  let ps := exec_properties.foldl (fun acc kv => setProp acc kv.1 kv.2) ps
  let ps := match exec_properties.lookup "module_file" with
    | some mf =>
        if mf ≠ "" then
          match env.fileContents mf with
          | some contents => setProp ps "checksum_md5" (env.md5hex contents)
          | none => ps
        else ps
    | none => ps
  let ps := setProp ps "pipeline_name" pipeline_info.pipeline_name
  let ps := setProp ps "pipeline_root" pipeline_info.pipeline_root
  let ps := if optTruthy pipeline_info.run_id then
      setProp ps "run_id" (pipeline_info.run_id.getD "")
    else ps
  setProp ps "component_id" component_info.component_id

def prepare_execution (env : Env) (st : Store) (state : String)
    (exec_properties : Props) (pipeline_info : PipelineInfo)
    (component_info : ComponentInfo) : Res Execution :=
  match prepare_execution_type st component_info.component_type exec_properties with
  | .error e => .error e
  | .ok (tid, st1) =>
      .ok ({ type_id := tid,
             properties := executionProperties env state exec_properties
               pipeline_info component_info }, st1)

/-- register_execution: prepare a NEW execution and write it with its
contexts in one put_execution call. -/
def register_execution (env : Env) (st : Store) (exec_properties : Props)
    (pipeline_info : PipelineInfo) (component_info : ComponentInfo)
    (contexts : List Context) : Res Int :=
  match prepare_execution env st EXECUTION_STATE_NEW exec_properties
      pipeline_info component_info with
  | .error e => .error e
  | .ok (execution, st1) =>
      let (eid, st2) := put_execution st1 execution contexts
      .ok (eid, st2)

/-! ### Artifact publishing (_upsert_artifacts / publish_artifacts) -/

/-- _prepare_artifact_type: reuse the type when it already carries an id,
otherwise register it and record the assigned id. -/
def prepare_artifact_type_id (st : Store) (a : Artifact) : Int × Store :=
  if a.type_id != 0 then (a.type_id, st)
  else put_artifact_type st a.type_name

/-- First phase of _upsert_artifacts: resolve each artifact's type and set
its state, in list order. -/
def resolve_types_and_state (st : Store) (state : String) :
    List Artifact → List Artifact × Store
  | [] => ([], st)
  | a :: rest =>
      let (tid, st1) := prepare_artifact_type_id st a
      let a1 : Artifact := { a with type_id := tid, state := state }
      let (l, st2) := resolve_types_and_state st1 state rest
      (a1 :: l, st2)

/-- _upsert_artifacts: resolve types and states, batch put_artifacts, then
copy the assigned ids back onto the artifacts. -/
def upsert_artifacts (st : Store) (l : List Artifact) (state : String) :
    List Artifact × Store :=
  let (l1, st1) := resolve_types_and_state st state l
  let (ids, st2) := put_artifacts st1 l1
  (l1.zipWith (fun a aid => { a with id := aid }) ids, st2)

/-- publish_artifacts: upsert with state PUBLISHED. -/
def publish_artifacts (st : Store) (l : List Artifact) : List Artifact × Store :=
  upsert_artifacts st l ARTIFACT_STATE_PUBLISHED

/-! ### publish_execution -/

/-- The inner input loop of publish_execution for one key: every input must
already have an id, and gets one INPUT event per (key, index). -/
def collect_input_events_for_key (execution_id : Int) (key : String) :
    Int → List Artifact → Except PyErr (List Event)
  | _, [] => .ok []
  | index, a :: rest =>
      if a.id == 0 then .error (.runtimeError "input artifact has missing id")
      else
        match collect_input_events_for_key execution_id key (index + 1) rest with
        | .error e => .error e
        | .ok evs =>
            .ok (prepare_event execution_id a.id key index .INPUT :: evs)

/-- The input loop of publish_execution over all keys. -/
def collect_input_events (execution_id : Int) :
    List (String × List Artifact) → Except PyErr (List Event)
  | [] => .ok []
  | (key, l) :: rest =>
      match collect_input_events_for_key execution_id key 0 l with
      | .error e => .error e
      | .ok evs =>
          match collect_input_events execution_id rest with
          | .error e => .error e
          | .ok evs2 => .ok (evs ++ evs2)

/-- The inner output loop of publish_execution for one key: an id-less
output is fatal for a CACHED publish and is published (mutating the
caller's artifact) for a COMPLETE one; each slot gets an OUTPUT event
carrying the artifact's id as of event construction. -/
def publish_outputs_for_key (execution_id : Int) (state : String) (key : String) :
    Int → List Artifact → Store →
    Except (PyErr × Store) ((List Event × List Artifact) × Store)
  | _, [], st => .ok (([], []), st)
  | index, a :: rest, st =>
      if a.id == 0 then
        if state == EXECUTION_STATE_CACHED then
          .error (.runtimeError "output artifact id not available for cached output", st)
        else
          let (l2, st2) := publish_artifacts st [a]
          let a2 := l2.headD a
          match publish_outputs_for_key execution_id state key (index + 1) rest st2 with
          | .error e => .error e
          | .ok ((evs, outs), st3) =>
              .ok ((prepare_event execution_id a2.id key index .OUTPUT :: evs,
                    a2 :: outs), st3)
      else
        match publish_outputs_for_key execution_id state key (index + 1) rest st with
        | .error e => .error e
        | .ok ((evs, outs), st3) =>
            .ok ((prepare_event execution_id a.id key index .OUTPUT :: evs,
                  a :: outs), st3)

/-- The output loop of publish_execution over all keys. -/
def publish_outputs (execution_id : Int) (state : String) :
    List (String × List Artifact) → Store →
    Except (PyErr × Store) ((List Event × List (String × List Artifact)) × Store)
  | [], st => .ok (([], []), st)
  | (key, l) :: rest, st =>
      match publish_outputs_for_key execution_id state key 0 l st with
      | .error e => .error e
      | .ok ((evs, l2), st2) =>
          match publish_outputs execution_id state rest st2 with
          | .error e => .error e
          | .ok ((evs2, rest2), st3) => .ok ((evs ++ evs2, (key, l2) :: rest2), st3)

/-- _update_execution_state: rewrite the state property and put back. -/
def update_execution_state (st : Store) (execution : Execution)
    (new_state : String) : Store :=
  put_executions st
    { execution with properties := setProp execution.properties "state" new_state }

/-- publish_execution: validate the state, collect INPUT events, process
outputs (publishing id-less ones when COMPLETE), update the execution's
state, then write all events in one batch. -/
def publish_execution (st : Store) (execution_id : Int)
    (input_dict output_dict : List (String × List Artifact)) (state : String) :
    Res (List (String × List Artifact)) :=
  if !(state == EXECUTION_STATE_CACHED || state == EXECUTION_STATE_COMPLETE) then
    .error (.runtimeError "Cannot publish execution with state", st)
  else
    match collect_input_events execution_id input_dict with
    | .error e => .error (e, st)
    | .ok input_events =>
        match publish_outputs execution_id state output_dict st with
        | .error e => .error e
        | .ok ((output_events, output_dict2), st2) =>
            match get_executions_by_id st2 execution_id with
            | [execution] =>
                let st3 := update_execution_state st2 execution state
                let events := input_events ++ output_events
                let st4 := if events.isEmpty then st3 else put_events st3 events
                .ok (output_dict2, st4)
            | _ => .error (.valueError "unpack", st2)

/-! ### Cache lookup (previous_execution) -/

/-- The set of ids of the supplied input artifacts. -/
def inputIdSet (input_dict : List (String × List Artifact)) : Finset Int :=
  ((input_dict.map (fun kv => kv.2.map (fun a => a.id))).flatten).toFinset

/-- The set of artifact ids in an execution's INPUT/DECLARED_INPUT events. -/
def executionInputIdSet (st : Store) (execution_id : Int) : Finset Int :=
  (((get_events_by_execution_ids st execution_id).filter (fun ev =>
      ev.type == EventType.INPUT || ev.type == EventType.DECLARED_INPUT)).map
    (fun ev => ev.artifact_id)).toFinset

/-- _get_cached_execution_id: scan the candidate ids in order and return the
first whose consumed-input id set equals the supplied one. -/
def get_cached_execution_id (st : Store)
    (input_dict : List (String × List Artifact)) :
    List Int → Option Int
  | [] => none
  | execution_id :: rest =>
      if inputIdSet input_dict = executionInputIdSet st execution_id then
        some execution_id
      else get_cached_execution_id st input_dict rest

/-- _is_eligible_previous_execution: clear run_id on both records, copy the
candidate's id onto the template, then compare the protos with ==. -/
def is_eligible_previous_execution (current target : Execution) : Bool :=
  let current1 := { current with properties := setProp current.properties "run_id" "" }
  let target1 := { target with properties := setProp target.properties "run_id" "" }
  let current2 := { current1 with id := target1.id }
  executionEq current2 target1

/-- Python list.sort(reverse=True) on ids: sort descending. -/
def sortDesc (l : List Int) : List Int :=
  l.insertionSort (fun a b => b ≤ a)

def get_pipeline_context (st : Store) (pipeline_info : PipelineInfo) :
    Option Context :=
  get_context_by_type_and_name st CONTEXT_TYPE_PIPELINE
    pipeline_info.pipeline_context_name

/-- previous_execution: build the COMPLETE-state template, require the
pipeline context, filter its executions through the eligibility test, sort
the candidate ids descending, cap at MAX_EXECUTIONS_FOR_CACHE, and take the
first candidate consuming exactly the supplied input ids. -/
def previous_execution (env : Env) (st : Store)
    (input_artifacts : List (String × List Artifact)) (exec_properties : Props)
    (pipeline_info : PipelineInfo) (component_info : ComponentInfo) :
    Res (Option Int) :=
  match prepare_execution env st EXECUTION_STATE_COMPLETE exec_properties
      pipeline_info component_info with
  | .error e => .error e
  | .ok (expected_previous_execution, st1) =>
      match get_pipeline_context st1 pipeline_info with
      | none => .ok (none, st1)
      | some context =>
          let candidate_execution_ids :=
            ((get_executions_by_context st1 context.id).filter (fun e =>
                is_eligible_previous_execution expected_previous_execution e)).map
              (fun e => e.id)
          let sorted := sortDesc candidate_execution_ids
          let capped := sorted.take (min sorted.length MAX_EXECUTIONS_FOR_CACHE)
          .ok (get_cached_execution_id st1 input_artifacts capped, st1)

/-! ### fetch_previous_result_artifacts -/

/-- The grouping loop of fetch_previous_result_artifacts: fold the
execution's events, and for each OUTPUT event fetch its (unique) artifact
and store it under (slot key, slot index). -/
def group_output_artifacts (st : Store) :
    List Event → List (String × List (Int × Artifact)) →
    Except (PyErr × Store) (List (String × List (Int × Artifact)))
  | [], acc => .ok acc
  | ev :: rest, acc =>
      if ev.type == EventType.OUTPUT then
        match get_artifacts_by_id st ev.artifact_id with
        | [artifact] =>
            let inner := (acc.lookup ev.key).getD []
            group_output_artifacts st rest (setEntry acc ev.key (setEntry inner ev.index artifact))
        | _ => .error (.valueError "unpack", st)
      else group_output_artifacts st rest acc

/-- The per-index attachment for one output name: set_mlmd_artifact on the
positional handle at index 0,1,... — a missing index is a Python KeyError. -/
def attach_indices (inner : List (Int × Artifact)) :
    Int → List Artifact → Option (List Artifact)
  | _, [] => some []
  | index, _ :: rest =>
      match inner.lookup index with
      | none => none
      | some stored =>
          match attach_indices inner (index + 1) rest with
          | none => none
          | some l => some (stored :: l)

/-- The per-name loop of fetch_previous_result_artifacts: unmatched names
and index-count mismatches are fatal. -/
def attach_outputs (st : Store) (g : List (String × List (Int × Artifact))) :
    List (String × List Artifact) →
    Except (PyErr × Store) (List (String × List Artifact))
  | [] => .ok []
  | (output_name, output_list) :: rest =>
      match g.lookup output_name with
      | none => .error (.runtimeError "Unmatched output name from previous execution.", st)
      | some index_to_artifacts =>
          if output_list.length != index_to_artifacts.length then
            .error (.runtimeError "Output name expected items mismatch", st)
          else
            match attach_indices index_to_artifacts 0 output_list with
            | none => .error (.keyError, st)
            | some l2 =>
                match attach_outputs st g rest with
                | .error e => .error e
                | .ok rest2 => .ok ((output_name, l2) :: rest2)

/-- fetch_previous_result_artifacts: group the execution's OUTPUT events by
slot, then attach the stored artifacts onto the caller's output shape. -/
def fetch_previous_result_artifacts (st : Store)
    (output_dict : List (String × List Artifact)) (execution_id : Int) :
    Res (List (String × List Artifact)) :=
  match group_output_artifacts st (get_events_by_execution_ids st execution_id) [] with
  | .error e => .error e
  | .ok g =>
      match attach_outputs st g output_dict with
      | .error e => .error e
      | .ok res => .ok (res, st)

/-! ### Context registration -/

/-- The property kind _register_context_if_not_exist computes for one
context property entry: property_type_mapping applied to the Python type of
the KEY (a text value), not of the value. -/
def contextPropertyKind (k : String) : Option PropKind :=
  property_type_mapping (pyTypeOf (.pyStr k))

/-- The dict comprehension building the context type's property kinds; a
missing entry in property_type_mapping would be a Python KeyError. -/
def contextTypeKinds :
    List (String × PyVal) → Except PyErr (List (String × PropKind))
  | [] => .ok []
  | (k, _) :: rest =>
      match contextPropertyKind k with
      | none => .error .keyError
      | some t =>
          match contextTypeKinds rest with
          | .error e => .error e
          | .ok l => .ok ((k, t) :: l)

/-- The ContextType proto _register_context_type_if_not_exist builds. -/
def builtContextType (context_type_name : String)
    (properties : List (String × PropKind)) : ContextType :=
  { name := context_type_name,
    properties := properties.foldl (fun acc kv => setEntry acc kv.1 kv.2) [] }

/-- _register_context_type_if_not_exist: build the ContextType proto and
put it with can_add_fields. -/
def register_context_type_if_not_exist (st : Store) (context_type_name : String)
    (properties : List (String × PropKind)) : Res Int :=
  put_context_type st (builtContextType context_type_name properties)

/-- The value-dispatch loop of _register_context_if_not_exist: ints to
int_value, strings to string_value, floats to double_value, anything else
(e.g. None) a RuntimeError. -/
def setContextProps (ps : List (String × CtxPropVal)) :
    List (String × PyVal) → Except PyErr (List (String × CtxPropVal))
  | [] => .ok ps
  | (k, v) :: rest =>
      match v with
      | .pyInt n => setContextProps (setEntry ps k (.intValue n)) rest
      | .pyStr s => setContextProps (setEntry ps k (.stringValue s)) rest
      | .pyFloat q => setContextProps (setEntry ps k (.doubleValue q)) rest
      | .pyNone => .error (.runtimeError "Unexpected property type")

/-- _register_context_if_not_exist: register the context type (kinds from
the keys), build the context, try to insert it; on AlreadyExistsError fetch
the existing context of that type and name. -/
def register_context_if_not_exist (st : Store)
    (context_type_name context_name : String)
    (properties : List (String × PyVal)) : Res Context :=
  match contextTypeKinds properties with
  | .error e => .error (e, st)
  | .ok kinds =>
      match register_context_type_if_not_exist st context_type_name kinds with
      | .error e => .error e
      | .ok (context_type_id, st1) =>
          match setContextProps [] properties with
          | .error e => .error (e, st1)
          | .ok ps =>
              let context : Context :=
                { type_id := context_type_id, name := context_name, properties := ps }
              match put_contexts st1 [context] with
              | .ok ([context_id], st2) => .ok ({ context with id := context_id }, st2)
              | .ok (_, st2) => .error (.valueError "unpack", st2)
              | .error (.alreadyExistsError, st2) =>
                  match get_context_by_type_and_name st2 context_type_name context_name with
                  | some c => .ok (c, st2)
                  | none => .error (.assertionError "Run context is missing", st2)
              | .error e => .error e

/-- register_contexts_if_not_exists: pipeline context, then (only when the
run id is truthy) the pipeline-run context, then the component-run context,
in that order. -/
def register_contexts_if_not_exists (st : Store)
    (pipeline_info : PipelineInfo) (component_info : ComponentInfo) :
    Res (List Context) :=
  match register_context_if_not_exist st CONTEXT_TYPE_PIPELINE
      pipeline_info.pipeline_context_name
      [("pipeline_name", .pyStr pipeline_info.pipeline_name)] with
  | .error e => .error e
  | .ok (pipeline_context, st1) =>
      let step2 : Res (List Context) :=
        if optTruthy pipeline_info.run_id then
          match register_context_if_not_exist st1 CONTEXT_TYPE_PIPELINE_RUN
              pipeline_info.pipeline_run_context_name
              [("pipeline_name", .pyStr pipeline_info.pipeline_name),
               ("run_id", pyOfRunId pipeline_info.run_id)] with
          | .error e => .error e
          | .ok (pipeline_run_context, st2) =>
              .ok ([pipeline_context, pipeline_run_context], st2)
        else .ok ([pipeline_context], st1)
      match step2 with
      | .error e => .error e
      | .ok (result, st2) =>
          match register_context_if_not_exist st2 CONTEXT_TYPE_COMPONENT_RUN
              (component_run_context_name pipeline_info component_info)
              [("pipeline_name", .pyStr pipeline_info.pipeline_name),
               ("run_id", pyOfRunId pipeline_info.run_id),
               ("component_id", .pyStr component_info.component_id)] with
          | .error e => .error e
          | .ok (component_run_context, st3) =>
              .ok (result ++ [component_run_context], st3)

/-! ## Lemmas: association lists -/

theorem lookup_setEntry_self {κ β : Type} [BEq κ] [LawfulBEq κ] [DecidableEq κ]
    (d : List (κ × β)) (k : κ) (v : β) : (setEntry d k v).lookup k = some v := by
  simp [setEntry, List.lookup_cons]

theorem lookup_cons_self {κ β : Type} [BEq κ] [LawfulBEq κ]
    (d : List (κ × β)) (k : κ) (v : β) :
    List.lookup k ((k, v) :: d) = some v := by
  simp [List.lookup_cons]

theorem lookup_cons_ne {κ β : Type} [BEq κ] [LawfulBEq κ]
    (d : List (κ × β)) {k k' : κ} (v : β) (h : k' ≠ k) :
    List.lookup k' ((k, v) :: d) = d.lookup k' := by
  simp [List.lookup_cons, beq_eq_false_iff_ne.mpr h]

theorem lookup_filter_out {κ β : Type} [BEq κ] [LawfulBEq κ] [DecidableEq κ]
    {k k' : κ} (h : k' ≠ k) :
    ∀ d : List (κ × β), (d.filter (fun kv => kv.1 ≠ k)).lookup k' = d.lookup k'
  | [] => rfl
  | (k1, v1) :: rest => by
      by_cases hk : k1 = k
      · subst hk
        rw [List.filter_cons_of_neg (by simp), lookup_filter_out h rest,
          lookup_cons_ne rest v1 h]
      · rw [List.filter_cons_of_pos (by simp [hk])]
        by_cases h2 : k' = k1
        · subst h2
          rw [lookup_cons_self, lookup_cons_self]
        · rw [lookup_cons_ne _ v1 h2, lookup_cons_ne rest v1 h2,
            lookup_filter_out h rest]

theorem lookup_setEntry_ne {κ β : Type} [BEq κ] [LawfulBEq κ] [DecidableEq κ]
    (d : List (κ × β)) {k k' : κ} (v : β) (h : k' ≠ k) :
    (setEntry d k v).lookup k' = d.lookup k' := by
  rw [setEntry, lookup_cons_ne _ v h, lookup_filter_out h d]

theorem lookup_eq_none_of_not_mem {κ β : Type} [BEq κ] [LawfulBEq κ]
    {k : κ} : ∀ {d : List (κ × β)}, k ∉ d.map Prod.fst → d.lookup k = none
  | [], _ => rfl
  | (k1, v1) :: rest, h => by
      rw [List.map_cons, List.mem_cons] at h
      push_neg at h
      simp [List.lookup_cons, beq_eq_false_iff_ne.mpr h.1,
        lookup_eq_none_of_not_mem h.2]

theorem mem_keys_of_lookup_eq_some {κ β : Type} [BEq κ] [LawfulBEq κ]
    {k : κ} {v : β} : ∀ {d : List (κ × β)},
    d.lookup k = some v → k ∈ d.map Prod.fst
  | [], h => by simp [List.lookup] at h
  | (k1, v1) :: rest, h => by
      rw [List.lookup_cons] at h
      rw [List.map_cons, List.mem_cons]
      by_cases hk : k = k1
      · exact Or.inl hk
      · rw [beq_eq_false_iff_ne.mpr hk] at h
        exact Or.inr (mem_keys_of_lookup_eq_some h)

/-! ## Lemmas: property-map equality -/

theorem propsEq_iff_forall {a b : Props} :
    propsEq a b = true ↔ ∀ k, getProp a k = getProp b k := by
  constructor
  · intro h k
    rw [propsEq, List.all_eq_true] at h
    by_cases hk : k ∈ a.map Prod.fst ++ b.map Prod.fst
    · simpa using h k hk
    · rw [List.mem_append] at hk
      push_neg at hk
      rw [getProp, getProp, lookup_eq_none_of_not_mem hk.1,
        lookup_eq_none_of_not_mem hk.2]
  · intro h
    rw [propsEq, List.all_eq_true]
    intro k _
    simpa using h k

theorem executionEq_iff {a b : Execution} :
    executionEq a b = true ↔
      a.id = b.id ∧ a.type_id = b.type_id ∧ propsEq a.properties b.properties = true := by
  simp [executionEq, and_assoc]

/-! ## Lemmas: the prepared execution's property map -/

theorem getProp_setProp_self (ps : Props) (k v : String) :
    getProp (setProp ps k v) k = some v :=
  lookup_setEntry_self ps k v

theorem getProp_setProp_ne (ps : Props) {k k' : String} (v : String)
    (h : k' ≠ k) : getProp (setProp ps k v) k' = getProp ps k' :=
  lookup_setEntry_ne ps v h

theorem getProp_foldl_setProp_of_not_mem {k : String} :
    ∀ (props : Props) (ps : Props), k ∉ props.map Prod.fst →
      getProp (props.foldl (fun acc kv => setProp acc kv.1 kv.2) ps) k = getProp ps k
  | [], _, _ => rfl
  | kv :: rest, ps, h => by
      rw [List.map_cons, List.mem_cons] at h
      push_neg at h
      rw [List.foldl_cons,
        getProp_foldl_setProp_of_not_mem rest (setProp ps kv.1 kv.2) h.2,
        getProp_setProp_ne _ _ h.1]

/-- The template's state property is the state it was prepared with, as long
as the declared execution properties do not themselves contain a state key. -/
theorem executionProperties_state (env : Env) (state : String)
    (exec_properties : Props) (pipeline_info : PipelineInfo)
    (component_info : ComponentInfo)
    (hs : "state" ∉ exec_properties.map Prod.fst) :
    getProp (executionProperties env state exec_properties pipeline_info
      component_info) "state" = some state := by
  simp only [executionProperties]
  rw [getProp_setProp_ne _ _ (by decide)]
  have hbase : ∀ ps : Props,
      getProp ps "state" = some state →
      getProp (if optTruthy pipeline_info.run_id then
        setProp ps "run_id" (pipeline_info.run_id.getD "") else ps) "state" = some state := by
    intro ps hps
    by_cases hr : optTruthy pipeline_info.run_id
    · rw [if_pos hr, getProp_setProp_ne _ _ (by decide)]
      exact hps
    · rw [if_neg hr]
      exact hps
  refine hbase _ ?_
  rw [getProp_setProp_ne _ _ (by decide), getProp_setProp_ne _ _ (by decide)]
  have hfold : getProp (exec_properties.foldl (fun acc kv => setProp acc kv.1 kv.2)
      (setProp [] "state" state)) "state" = some state := by
    rw [getProp_foldl_setProp_of_not_mem exec_properties _ hs,
      getProp_setProp_self]
  cases hmf : exec_properties.lookup "module_file" with
  | none => exact hfold
  | some mf =>
      dsimp only
      by_cases hne : mf ≠ ""
      · rw [if_pos hne]
        cases hfc : env.fileContents mf with
        | none => exact hfold
        | some contents =>
            rw [getProp_setProp_ne _ _ (by decide)]
            exact hfold
      · rw [if_neg hne]
        exact hfold

/-- C2, amended: a stored execution is a property-matching candidate if and
only if its type id equals the template's AND its full property map equals
that of the expected template built with state COMPLETE, after clearing the
run_id property on both records and copying the candidate's id onto the
template (the source compares whole protos, so the type id matters too);
consequently two executions differing only in run_id are equivalent, and an
execution whose state property is not COMPLETE (such as a stuck NEW
execution) is never a candidate, provided the declared execution properties
do not themselves declare a "state" key. -/
theorem c2_eligibility_characterization :
    (∀ current target : Execution,
      is_eligible_previous_execution current target = true ↔
        (current.type_id = target.type_id ∧
         propsEq (setProp current.properties "run_id" "")
           (setProp target.properties "run_id" "") = true)) ∧
    (∀ (env : Env) (st : Store) (exec_properties : Props)
       (pipeline_info : PipelineInfo) (component_info : ComponentInfo)
       (tmpl : Execution) (st1 : Store) (cand : Execution),
      prepare_execution env st EXECUTION_STATE_COMPLETE exec_properties
          pipeline_info component_info = .ok (tmpl, st1) →
      "state" ∉ exec_properties.map Prod.fst →
      getProp cand.properties "state" ≠ some EXECUTION_STATE_COMPLETE →
      is_eligible_previous_execution tmpl cand = false) := by
  have hch : ∀ current target : Execution,
      is_eligible_previous_execution current target = true ↔
        (current.type_id = target.type_id ∧
         propsEq (setProp current.properties "run_id" "")
           (setProp target.properties "run_id" "") = true) := by
    intro current target
    simp [is_eligible_previous_execution, executionEq, and_assoc]
  refine ⟨hch, ?_⟩
  intro env st exec_properties pipeline_info component_info tmpl st1 cand hprep hs hstate
  cases he : is_eligible_previous_execution tmpl cand
  · rfl
  · exfalso
    obtain ⟨-, hpe⟩ := (hch tmpl cand).mp he
    have hpk := propsEq_iff_forall.mp hpe "state"
    rw [getProp_setProp_ne _ _ (by decide),
      getProp_setProp_ne _ _ (by decide)] at hpk
    have htmpl : getProp tmpl.properties "state" = some EXECUTION_STATE_COMPLETE := by
      rw [prepare_execution] at hprep
      cases hpt : prepare_execution_type st component_info.component_type
          exec_properties with
      | error e =>
          rw [hpt] at hprep
          exact absurd hprep (by simp)
      | ok pair =>
          obtain ⟨tid, st1x⟩ := pair
          rw [hpt] at hprep
          simp only [Except.ok.injEq, Prod.mk.injEq] at hprep
          obtain ⟨htm, -⟩ := hprep
          rw [← htm]
          exact executionProperties_state env EXECUTION_STATE_COMPLETE
            exec_properties pipeline_info component_info hs
    rw [htmpl] at hpk
    exact hstate hpk.symm

/-- C2, counterexample to the claim as stated: a stored execution whose
normalized property map is identical to the template's is nevertheless
rejected by _is_eligible_previous_execution when its type id differs,
because the source compares whole Execution protos, not just property maps. -/
theorem c2_counterexample :
    propsEq
      (setProp (Execution.mk 0 1 [("state", "complete")]).properties "run_id" "")
      (setProp (Execution.mk 7 2 [("state", "complete")]).properties "run_id" "") = true ∧
    is_eligible_previous_execution
      (Execution.mk 0 1 [("state", "complete")])
      (Execution.mk 7 2 [("state", "complete")]) = false := by
  exact ⟨by decide, by decide⟩

/-! ## Concrete fixtures for witnesses -/

/-- An environment in which no file exists. -/
def env0 : Env := { fileContents := fun _ => none, md5hex := fun _ => "" }

def pi0 : PipelineInfo :=
  { pipeline_name := "p", pipeline_root := "root", run_id := none }

def piR : PipelineInfo :=
  { pipeline_name := "p", pipeline_root := "root", run_id := some "r1" }

def ci0 : ComponentInfo := { component_type := "CT", component_id := "c" }

/-- A store already holding the execution type CT with the base schema. -/
def st0 : Store :=
  { execution_types := [{ id := 1, name := "CT", properties :=
      [("state", .STRING), ("pipeline_name", .STRING), ("pipeline_root", .STRING),
       ("run_id", .STRING), ("component_id", .STRING)] }],
    next_id := 2 }

/-- C2 witness: the amended characterization applied to a concrete COMPLETE
template and a concrete stuck-NEW candidate. -/
theorem c2_witness :
    is_eligible_previous_execution
      (Execution.mk 0 1 (executionProperties env0 EXECUTION_STATE_COMPLETE [] pi0 ci0))
      (Execution.mk 5 1 [("state", "new")]) = false :=
  c2_eligibility_characterization.2 env0 st0 [] pi0 ci0 _ st0
    (Execution.mk 5 1 [("state", "new")]) rfl (by decide) (by decide)

/-! ## Lemmas: context type registration -/

theorem mem_setEntry {κ β : Type} [DecidableEq κ] {d : List (κ × β)} {k : κ}
    {v : β} {kv : κ × β} (h : kv ∈ setEntry d k v) : kv = (k, v) ∨ kv ∈ d := by
  rw [setEntry, List.mem_cons] at h
  exact h.imp id List.mem_of_mem_filter

theorem snd_mem_foldl_setEntry {κ β : Type} [DecidableEq κ] (P : β → Prop) :
    ∀ (l : List (κ × β)) (acc : List (κ × β)),
      (∀ kv ∈ acc, P kv.2) → (∀ kv ∈ l, P kv.2) →
      ∀ kv ∈ l.foldl (fun d kv2 => setEntry d kv2.1 kv2.2) acc, P kv.2
  | [], acc, hacc, _, kv, hm => hacc kv hm
  | kv1 :: rest, acc, hacc, hl, kv, hm => by
      rw [List.foldl_cons] at hm
      refine snd_mem_foldl_setEntry P rest (setEntry acc kv1.1 kv1.2) ?_ ?_ kv hm
      · intro kv2 h2
        rcases mem_setEntry h2 with h3 | h3
        · rw [h3]
          exact hl kv1 (List.mem_cons_self _ _)
        · exact hacc kv2 h3
      · intro kv2 h2
        exact hl kv2 (List.mem_cons_of_mem _ h2)

theorem contextTypeKinds_all_string :
    ∀ (properties : List (String × PyVal)) (kinds : List (String × PropKind)),
      contextTypeKinds properties = .ok kinds → ∀ kv ∈ kinds, kv.2 = PropKind.STRING
  | [], kinds, h => by
      rw [contextTypeKinds] at h
      cases h
      intro kv hm
      exact absurd hm (List.not_mem_nil kv)
  | (k, v) :: rest, kinds, h => by
      rw [contextTypeKinds] at h
      cases hrest : contextTypeKinds rest with
      | error e =>
          rw [show contextPropertyKind k = some PropKind.STRING from rfl] at h
          dsimp only at h
          rw [hrest] at h
          cases h
      | ok l =>
          rw [show contextPropertyKind k = some PropKind.STRING from rfl] at h
          dsimp only at h
          rw [hrest] at h
          cases h
          intro kv hm
          rcases List.mem_cons.mp hm with h2 | h2
          · rw [h2]
          · exact contextTypeKinds_all_string rest l hrest kv h2

theorem put_context_type_new_types {st : Store} {t : ContextType} {tid : Int}
    {st' : Store} (h : put_context_type st t = .ok (tid, st')) :
    ∀ ct ∈ st'.context_types, ct ∈ st.context_types ∨ ct.properties = t.properties := by
  rw [put_context_type] at h
  cases hf : st.context_types.find? (fun e => e.name == t.name) with
  | none =>
      rw [hf] at h
      cases h
      intro ct hm
      rcases List.mem_append.mp hm with h2 | h2
      · exact Or.inl h2
      · rcases List.mem_singleton.mp h2 with h3
        exact Or.inr (by rw [h3])
  | some e =>
      rw [hf] at h
      dsimp only at h
      by_cases hc : e.properties.all (fun kv => t.properties.lookup kv.1 == some kv.2)
      · rw [if_pos hc] at h
        cases h
        intro ct hm
        rcases List.mem_map.mp hm with ⟨orig, horig, heq⟩
        by_cases hn : orig.name == t.name
        · rw [if_pos hn] at heq
          exact Or.inr (by rw [← heq])
        · rw [if_neg hn] at heq
          exact Or.inl (heq ▸ horig)
      · rw [if_neg hc] at h
        cases h

theorem put_contexts_ok_context_types {l : List Context} :
    ∀ {st : Store} {ids : List Int} {st' : Store},
      put_contexts st l = .ok (ids, st') → st'.context_types = st.context_types := by
  induction l with
  | nil =>
      intro st ids st' h
      rw [put_contexts] at h
      cases h
      rfl
  | cons c rest ih =>
      intro st ids st' h
      rw [put_contexts] at h
      by_cases hdup : st.contexts.any (fun c2 => c2.type_id == c.type_id && c2.name == c.name)
      · rw [if_pos hdup] at h
        cases h
      · rw [if_neg hdup] at h
        cases hrest : put_contexts { st with
            contexts := st.contexts ++ [{ c with id := st.next_id }],
            next_id := st.next_id + 1 } rest with
        | error e =>
            rw [hrest] at h
            cases h
        | ok p =>
            obtain ⟨ids2, st2⟩ := p
            rw [hrest] at h
            cases h
            exact (ih hrest).trans rfl

theorem put_contexts_error_context_types {l : List Context} :
    ∀ {st : Store} {e : PyErr} {st' : Store},
      put_contexts st l = .error (e, st') → st'.context_types = st.context_types := by
  induction l with
  | nil =>
      intro st e st' h
      rw [put_contexts] at h
      cases h
  | cons c rest ih =>
      intro st e st' h
      rw [put_contexts] at h
      by_cases hdup : st.contexts.any (fun c2 => c2.type_id == c.type_id && c2.name == c.name)
      · rw [if_pos hdup] at h
        cases h
        rfl
      · rw [if_neg hdup] at h
        cases hrest : put_contexts { st with
            contexts := st.contexts ++ [{ c with id := st.next_id }],
            next_id := st.next_id + 1 } rest with
        | error e2 =>
            rw [hrest] at h
            cases h
            exact (ih hrest).trans rfl
        | ok p =>
            obtain ⟨ids2, st2⟩ := p
            rw [hrest] at h
            cases h

/-- The context property value that the dispatch loop stores for one Python
value (pyNone never reaches storage — it raises instead). -/
def ctxValOf : PyVal → CtxPropVal
  | .pyInt n => .intValue n
  | .pyStr s => .stringValue s
  | .pyFloat q => .doubleValue q
  | .pyNone => .stringValue ""

theorem setContextProps_lookup_not_mem {k : String} :
    ∀ (l : List (String × PyVal)) (acc : List (String × CtxPropVal))
      (ps : List (String × CtxPropVal)),
      setContextProps acc l = .ok ps → k ∉ l.map Prod.fst →
      ps.lookup k = acc.lookup k
  | [], acc, ps, h, _ => by
      rw [setContextProps] at h
      cases h
      rfl
  | (k1, v1) :: rest, acc, ps, h, hnm => by
      rw [List.map_cons, List.mem_cons] at hnm
      push_neg at hnm
      cases v1 with
      | pyNone =>
          rw [setContextProps] at h
          cases h
      | pyInt n =>
          rw [setContextProps] at h
          rw [setContextProps_lookup_not_mem rest _ ps h hnm.2,
            lookup_setEntry_ne _ _ hnm.1]
      | pyStr s =>
          rw [setContextProps] at h
          rw [setContextProps_lookup_not_mem rest _ ps h hnm.2,
            lookup_setEntry_ne _ _ hnm.1]
      | pyFloat q =>
          rw [setContextProps] at h
          rw [setContextProps_lookup_not_mem rest _ ps h hnm.2,
            lookup_setEntry_ne _ _ hnm.1]

theorem setContextProps_lookup_mem {k : String} {v : PyVal} :
    ∀ (l : List (String × PyVal)) (acc : List (String × CtxPropVal))
      (ps : List (String × CtxPropVal)),
      setContextProps acc l = .ok ps → (l.map Prod.fst).Nodup → (k, v) ∈ l →
      ps.lookup k = some (ctxValOf v)
  | [], _, _, _, _, hm => absurd hm (List.not_mem_nil _)
  | (k1, v1) :: rest, acc, ps, h, hnd, hm => by
      rw [List.map_cons, List.nodup_cons] at hnd
      rcases List.mem_cons.mp hm with h2 | h2
      · cases h2
        cases v with
        | pyNone =>
            rw [setContextProps] at h
            cases h
        | pyInt n =>
            rw [setContextProps] at h
            rw [setContextProps_lookup_not_mem rest _ ps h hnd.1,
              lookup_setEntry_self]
            rfl
        | pyStr s =>
            rw [setContextProps] at h
            rw [setContextProps_lookup_not_mem rest _ ps h hnd.1,
              lookup_setEntry_self]
            rfl
        | pyFloat q =>
            rw [setContextProps] at h
            rw [setContextProps_lookup_not_mem rest _ ps h hnd.1,
              lookup_setEntry_self]
            rfl
      · cases v1 with
        | pyNone =>
            rw [setContextProps] at h
            cases h
        | pyInt n =>
            rw [setContextProps] at h
            exact setContextProps_lookup_mem rest _ ps h hnd.2 h2
        | pyStr s =>
            rw [setContextProps] at h
            exact setContextProps_lookup_mem rest _ ps h hnd.2 h2
        | pyFloat q =>
            rw [setContextProps] at h
            exact setContextProps_lookup_mem rest _ ps h hnd.2 h2

/-- Inversion of a successful _register_context_if_not_exist: it computed
the kinds, put the context type built from them, and left the stored
context types as put_context_type left them. -/
theorem register_context_context_types {st : Store} {ctn cn : String}
    {properties : List (String × PyVal)} {c : Context} {st' : Store}
    (h : register_context_if_not_exist st ctn cn properties = .ok (c, st')) :
    ∃ kinds ctid st1, contextTypeKinds properties = .ok kinds ∧
      put_context_type st (builtContextType ctn kinds) = .ok (ctid, st1) ∧
      st'.context_types = st1.context_types := by
  rw [register_context_if_not_exist] at h
  cases hk : contextTypeKinds properties with
  | error e =>
      rw [hk] at h
      cases h
  | ok kinds =>
      rw [hk] at h
      dsimp only at h
      rw [register_context_type_if_not_exist] at h
      cases hr : put_context_type st (builtContextType ctn kinds) with
      | error e =>
          rw [hr] at h
          cases h
      | ok p =>
          obtain ⟨ctid, st1⟩ := p
          rw [hr] at h
          dsimp only at h
          cases hsp : setContextProps [] properties with
          | error e =>
              rw [hsp] at h
              cases h
          | ok ps =>
              rw [hsp] at h
              dsimp only at h
              refine ⟨kinds, ctid, st1, rfl, hr, ?_⟩
              cases hp : put_contexts st1 [{ type_id := ctid, name := cn, properties := ps }] with
              | ok q =>
                  obtain ⟨ids, st2⟩ := q
                  rw [hp] at h
                  cases ids with
                  | nil =>
                      dsimp only at h
                      cases h
                  | cons cid tail =>
                      cases tail with
                      | nil =>
                          dsimp only at h
                          cases h
                          exact put_contexts_ok_context_types hp
                      | cons cid2 tail2 =>
                          dsimp only at h
                          cases h
              | error q =>
                  obtain ⟨e, st2⟩ := q
                  rw [hp] at h
                  cases e with
                  | alreadyExistsError =>
                      dsimp only at h
                      cases hg : get_context_by_type_and_name st2 ctn cn with
                      | some c2 =>
                          rw [hg] at h
                          cases h
                          exact put_contexts_error_context_types hp
                      | none =>
                          rw [hg] at h
                          cases h
                  | runtimeError m => cases h
                  | valueError m => cases h
                  | assertionError m => cases h
                  | keyError => cases h
                  | schemaConflictError a b => cases h

/-- C10: for every context registration, the context type written to the
store maps every property name to kind STRING, because the kind is computed
by applying property_type_mapping to the Python type of the property KEY
(always text) rather than to the value\x27s type; the supplied values are
nevertheless stored by their own runtime type — ints into int_value and
floats into double_value. -/
theorem c10_context_type_kinds_string :
    (∀ k : String, contextPropertyKind k = some PropKind.STRING) ∧
    (∀ (st : Store) (ctn cn : String) (properties : List (String × PyVal))
       (c : Context) (st' : Store),
      register_context_if_not_exist st ctn cn properties = .ok (c, st') →
      ∀ t ∈ st'.context_types, t ∉ st.context_types →
        ∀ kv ∈ t.properties, kv.2 = PropKind.STRING) ∧
    (∀ (properties : List (String × PyVal)) (ps : List (String × CtxPropVal)),
      setContextProps [] properties = .ok ps → (properties.map Prod.fst).Nodup →
      (∀ k n, (k, PyVal.pyInt n) ∈ properties →
        ps.lookup k = some (CtxPropVal.intValue n)) ∧
      (∀ k q, (k, PyVal.pyFloat q) ∈ properties →
        ps.lookup k = some (CtxPropVal.doubleValue q))) := by
  refine ⟨fun k => rfl, ?_, ?_⟩
  · intro st ctn cn properties c st' h t htmem htnew kv hkv
    obtain ⟨kinds, ctid, st1, hk, hput, hctx⟩ := register_context_context_types h
    rw [hctx] at htmem
    rcases put_context_type_new_types hput t htmem with hold | hprops
    · exact absurd hold htnew
    · rw [hprops, builtContextType] at hkv
      refine snd_mem_foldl_setEntry (fun p => p = PropKind.STRING) kinds [] ?_ ?_ kv hkv
      · intro kv2 h2
        exact absurd h2 (List.not_mem_nil kv2)
      · intro kv2 h2
        exact contextTypeKinds_all_string properties kinds hk kv2 h2
  · intro properties ps hsp hnd
    constructor
    · intro k n hm
      exact setContextProps_lookup_mem properties [] ps hsp hnd hm
    · intro k q hm
      exact setContextProps_lookup_mem properties [] ps hsp hnd hm

/-- C10 witness: the theorem applied to a concrete registration on the empty
store and to concrete int/float property values. -/
theorem c10_witness :
    (∀ kv ∈ (ContextType.mk 1 "pipeline" [("pipeline_name", PropKind.STRING)]).properties,
      kv.2 = PropKind.STRING) ∧
    List.lookup "a" [("b", CtxPropVal.doubleValue 5), ("a", CtxPropVal.intValue 3)] =
      some (CtxPropVal.intValue 3) ∧
    List.lookup "b" [("b", CtxPropVal.doubleValue 5), ("a", CtxPropVal.intValue 3)] =
      some (CtxPropVal.doubleValue 5) := by
  refine ⟨?_, ?_, ?_⟩
  · intro kv hkv
    exact c10_context_type_kinds_string.2.1 {} "pipeline" "p"
      [("pipeline_name", .pyStr "p")]
      (Context.mk 2 1 "p" [("pipeline_name", .stringValue "p")])
      (Store.mk [] [] [] [Context.mk 2 1 "p" [("pipeline_name", .stringValue "p")]]
        [ContextType.mk 1 "pipeline" [("pipeline_name", PropKind.STRING)]] [] [] [] 3)
      rfl _ (by decide) (by decide) kv hkv
  · exact (c10_context_type_kinds_string.2.2 [("a", .pyInt 3), ("b", .pyFloat 5)]
      [("b", .doubleValue 5), ("a", .intValue 3)] rfl (by decide)).1 "a" 3 (by decide)
  · exact (c10_context_type_kinds_string.2.2 [("a", .pyInt 3), ("b", .pyFloat 5)]
      [("b", .doubleValue 5), ("a", .intValue 3)] rfl (by decide)).2 "b" 5 (by decide)

/-- C5, counterexample to the claim as stated: with the execution type CT
already registered (its schema contains run_id), declaring the reserved key
run_id as a user execution property neither fails _prepare_execution_type
nor register_execution — the assertion lives only on the new-schema path. -/
theorem c5_counterexample :
    prepare_execution_type st0 "CT" [("run_id", "boom")] = .ok (1, st0) ∧
    register_execution env0 st0 [("run_id", "boom")] pi0 ci0 [] =
      .ok (2, { st0 with
        executions := [{ id := 2, type_id := 1, properties :=
          [("component_id", "c"), ("pipeline_root", "root"),
           ("pipeline_name", "p"), ("run_id", "boom"), ("state", "new")] }],
        next_id := 3 }) :=
  ⟨rfl, rfl⟩

/-- C5 (amended): a user-declared execution property named by a reserved key
makes registration fail with the assertion only on the path that builds a
new schema — that is, when no existing type of that name covers every
declared key; when an existing type covers the declared keys (as the
standard schema does for run_id and friends), the collision goes undetected
and the existing type id is returned. -/
theorem c5_reserved_key_assertion :
    (∀ (st : Store) (type_name : String) (exec_properties : Props),
      (get_execution_type st type_name = none ∨
        ∃ existing, get_execution_type st type_name = some existing ∧
          ¬ exec_properties.all
              (fun kv => (existing.properties.lookup kv.1).isSome) = true) →
      (∃ kv ∈ exec_properties, kv.1 ∈ EXECUTION_TYPE_RESERVED_KEYS) →
      ∃ k, k ∈ EXECUTION_TYPE_RESERVED_KEYS ∧
        prepare_execution_type st type_name exec_properties =
          .error (.assertionError ("execution properties with reserved key " ++ k), st)) ∧
    (∀ (st : Store) (type_name : String) (exec_properties : Props)
       (existing : ExecutionType),
      get_execution_type st type_name = some existing →
      exec_properties.all (fun kv => (existing.properties.lookup kv.1).isSome) = true →
      prepare_execution_type st type_name exec_properties = .ok (existing.id, st)) := by
  constructor
  · intro st type_name exec_properties hpath hres
    have hfind : ∃ kv0, exec_properties.find?
        (fun kv => EXECUTION_TYPE_RESERVED_KEYS.contains kv.1) = some kv0 := by
      obtain ⟨kv, hkvm, hkvr⟩ := hres
      have : (exec_properties.find?
          (fun kv => EXECUTION_TYPE_RESERVED_KEYS.contains kv.1)).isSome := by
        rw [List.find?_isSome]
        exact ⟨kv, hkvm, by simpa using hkvr⟩
      exact Option.isSome_iff_exists.mp this
    obtain ⟨kv0, hkv0⟩ := hfind
    have hkv0r : kv0.1 ∈ EXECUTION_TYPE_RESERVED_KEYS := by
      have := List.find?_some hkv0
      simpa using this
    have hreg : register_new_execution_type st type_name exec_properties =
        .error (.assertionError ("execution properties with reserved key " ++ kv0.1), st) := by
      rw [register_new_execution_type, hkv0]
    refine ⟨kv0.1, hkv0r, ?_⟩
    rcases hpath with hnone | ⟨existing, hsome, hncov⟩
    · rw [prepare_execution_type, hnone]
      exact hreg
    · rw [prepare_execution_type, hsome]
      dsimp only
      rw [if_neg hncov]
      exact hreg
  · intro st type_name exec_properties existing hget hcov
    rw [prepare_execution_type, hget]
    dsimp only
    rw [if_pos hcov]

/-- C5 witness: the amended theorem applied on the empty store (assertion
fires) and on st0 where CT covers run_id (collision undetected). -/
theorem c5_witness :
    (∃ k, k ∈ EXECUTION_TYPE_RESERVED_KEYS ∧
      prepare_execution_type {} "CT" [("run_id", "x")] =
        .error (.assertionError ("execution properties with reserved key " ++ k), {})) ∧
    prepare_execution_type st0 "CT" [("run_id", "boom")] = .ok (1, st0) := by
  constructor
  · exact c5_reserved_key_assertion.1 {} "CT" [("run_id", "x")] (Or.inl rfl)
      ⟨("run_id", "x"), by decide, by decide⟩
  · exact c5_reserved_key_assertion.2 st0 "CT" [("run_id", "boom")]
      { id := 1, name := "CT", properties :=
        [("state", .STRING), ("pipeline_name", .STRING), ("pipeline_root", .STRING),
         ("run_id", .STRING), ("component_id", .STRING)] }
      rfl (by decide)

/-! ## Lemmas: put_execution_type on an existing name -/

theorem builtExecutionType_name (type_name : String) (exec_properties : Props) :
    (builtExecutionType type_name exec_properties).name = type_name := rfl

theorem put_execution_type_existing_ok {st : Store} {t : ExecutionType}
    {e : ExecutionType}
    (hf : st.execution_types.find? (fun e2 => e2.name == t.name) = some e)
    (hall : e.properties.all (fun kv => t.properties.lookup kv.1 == some kv.2) = true) :
    put_execution_type st t = .ok (e.id, { st with
      execution_types := st.execution_types.map (fun e2 =>
        if e2.name == t.name then { t with id := e2.id } else e2) }) := by
  rw [put_execution_type, hf]
  dsimp only
  rw [if_pos hall]

theorem put_execution_type_existing_reject {st : Store} {t : ExecutionType}
    {e : ExecutionType}
    (hf : st.execution_types.find? (fun e2 => e2.name == t.name) = some e)
    (hnall : ¬ e.properties.all
      (fun kv => t.properties.lookup kv.1 == some kv.2) = true) :
    put_execution_type st t = .error (.alreadyExistsError, st) := by
  rw [put_execution_type, hf]
  dsimp only
  rw [if_neg hnall]

/-- C4: _prepare_execution_type reuses an existing type whose property set
covers every declared key (returning its id, store untouched); when the
existing type misses a declared key it attempts to evolve the schema — the
registered schema becomes the built one (existing fields plus the missing
ones) when the store allows it, and when the store rejects the evolution
the call fails with the schema-conflict ValueError carrying both the
existing and the attempted schema. -/
theorem c4_prepare_execution_type_reuse_or_evolve :
    (∀ (st : Store) (type_name : String) (exec_properties : Props)
       (existing : ExecutionType),
      get_execution_type st type_name = some existing →
      exec_properties.all (fun kv => (existing.properties.lookup kv.1).isSome) = true →
      prepare_execution_type st type_name exec_properties = .ok (existing.id, st)) ∧
    (∀ (st : Store) (type_name : String) (exec_properties : Props)
       (existing : ExecutionType),
      get_execution_type st type_name = some existing →
      ¬ exec_properties.all
          (fun kv => (existing.properties.lookup kv.1).isSome) = true →
      exec_properties.find?
          (fun kv => EXECUTION_TYPE_RESERVED_KEYS.contains kv.1) = none →
      (existing.properties.all (fun kv =>
          (builtExecutionType type_name exec_properties).properties.lookup kv.1 ==
            some kv.2) = true →
        prepare_execution_type st type_name exec_properties =
          .ok (existing.id, { st with
            execution_types := st.execution_types.map (fun e2 =>
              if e2.name == type_name then
                { builtExecutionType type_name exec_properties with id := e2.id }
              else e2) })) ∧
      (¬ existing.properties.all (fun kv =>
          (builtExecutionType type_name exec_properties).properties.lookup kv.1 ==
            some kv.2) = true →
        prepare_execution_type st type_name exec_properties =
          .error (.schemaConflictError existing
            (builtExecutionType type_name exec_properties), st))) := by
  constructor
  · intro st type_name exec_properties existing hget hcov
    rw [prepare_execution_type, hget]
    dsimp only
    rw [if_pos hcov]
  · intro st type_name exec_properties existing hget hncov hnores
    have hfind : st.execution_types.find? (fun e2 =>
        e2.name == (builtExecutionType type_name exec_properties).name) =
        some existing := hget
    constructor
    · intro hall
      rw [prepare_execution_type, hget]
      dsimp only
      rw [if_neg hncov, register_new_execution_type, hnores]
      dsimp only
      rw [put_execution_type_existing_ok hfind hall]
      rfl
    · intro hnall
      rw [prepare_execution_type, hget]
      dsimp only
      rw [if_neg hncov, register_new_execution_type, hnores]
      dsimp only
      rw [put_execution_type_existing_reject hfind hnall]
      dsimp only
      rw [show get_execution_type st type_name = some existing from hget]

/-- A store whose CT type has only the state field: a declared property
forces schema evolution, and evolution is allowed. -/
def stEvo : Store :=
  { execution_types := [{ id := 1, name := "CT", properties := [("state", .STRING)] }],
    next_id := 2 }

/-- A store whose CT type has a field (old_key) absent from the attempted
schema: the store rejects the evolution. -/
def stCon : Store :=
  { execution_types := [{ id := 1, name := "CT", properties :=
      [("state", .STRING), ("old_key", .STRING)] }],
    next_id := 2 }

/-- C4 witness: reuse on st0, successful evolution on stEvo, and the
schema-conflict error on stCon. -/
theorem c4_witness :
    prepare_execution_type st0 "CT" [] = .ok (1, st0) ∧
    prepare_execution_type stEvo "CT" [("lr", "0.1")] =
      .ok (1, { stEvo with
        execution_types := stEvo.execution_types.map (fun e2 =>
          if e2.name == "CT" then
            { builtExecutionType "CT" [("lr", "0.1")] with id := e2.id }
          else e2) }) ∧
    prepare_execution_type stCon "CT" [("lr", "0.1")] =
      .error (.schemaConflictError
        { id := 1, name := "CT",
          properties := [("state", .STRING), ("old_key", .STRING)] }
        (builtExecutionType "CT" [("lr", "0.1")]), stCon) := by
  refine ⟨?_, ?_, ?_⟩
  · exact c4_prepare_execution_type_reuse_or_evolve.1 st0 "CT" []
      { id := 1, name := "CT", properties :=
        [("state", .STRING), ("pipeline_name", .STRING), ("pipeline_root", .STRING),
         ("run_id", .STRING), ("component_id", .STRING)] }
      rfl (by decide)
  · exact (c4_prepare_execution_type_reuse_or_evolve.2 stEvo "CT" [("lr", "0.1")]
      { id := 1, name := "CT", properties := [("state", .STRING)] }
      rfl (by decide) rfl).1 (by decide)
  · exact (c4_prepare_execution_type_reuse_or_evolve.2 stCon "CT" [("lr", "0.1")]
      { id := 1, name := "CT",
        properties := [("state", .STRING), ("old_key", .STRING)] }
      rfl (by decide) rfl).2 (by decide)

/-- C6: code-bug witness. With an absent run id the call raises
RuntimeError("Unexpected property type") while registering the
component-run context — the None run id is placed into the component-run
property dict — instead of returning the pipeline and component-run
contexts; with a run id present it returns the three contexts in order. -/
theorem c6_missing_run_id_fails :
    (∃ st', register_contexts_if_not_exists {} pi0 ci0 =
      .error (.runtimeError "Unexpected property type", st')) ∧
    (∃ st', register_contexts_if_not_exists {} piR ci0 = .ok
      ([Context.mk 2 1 "p" [("pipeline_name", .stringValue "p")],
        Context.mk 4 3 "p.r1"
          [("run_id", .stringValue "r1"), ("pipeline_name", .stringValue "p")],
        Context.mk 6 5 "p.r1.c"
          [("component_id", .stringValue "c"), ("run_id", .stringValue "r1"),
           ("pipeline_name", .stringValue "p")]], st')) :=
  ⟨⟨_, rfl⟩, ⟨_, rfl⟩⟩

/-! ## Lemmas: idempotent context registration -/

theorem keys_setEntry_nodup {κ β : Type} [DecidableEq κ] {d : List (κ × β)}
    (hd : (d.map Prod.fst).Nodup) (k : κ) (v : β) :
    ((setEntry d k v).map Prod.fst).Nodup := by
  rw [setEntry, List.map_cons, List.nodup_cons]
  constructor
  · intro hmem
    obtain ⟨kv, hkv, hfst⟩ := List.mem_map.mp hmem
    have hne := List.of_mem_filter hkv
    simp only [decide_eq_true_eq] at hne
    exact hne hfst
  · exact ((List.filter_sublist _).map Prod.fst).nodup hd

theorem keys_foldl_setEntry_nodup {κ β : Type} [DecidableEq κ] :
    ∀ (l : List (κ × β)) (acc : List (κ × β)), (acc.map Prod.fst).Nodup →
      ((l.foldl (fun d kv => setEntry d kv.1 kv.2) acc).map Prod.fst).Nodup
  | [], _, h => h
  | kv :: rest, acc, h => by
      rw [List.foldl_cons]
      exact keys_foldl_setEntry_nodup rest _ (keys_setEntry_nodup h kv.1 kv.2)

theorem lookup_of_mem_nodup {κ β : Type} [BEq κ] [LawfulBEq κ] :
    ∀ {d : List (κ × β)}, (d.map Prod.fst).Nodup → ∀ {kv : κ × β}, kv ∈ d →
      d.lookup kv.1 = some kv.2
  | [], _, _, hm => absurd hm (List.not_mem_nil _)
  | (k1, v1) :: rest, hnd, kv, hm => by
      rw [List.map_cons, List.nodup_cons] at hnd
      rcases List.mem_cons.mp hm with h2 | h2
      · cases h2
        exact lookup_cons_self rest k1 v1
      · have hne : kv.1 ≠ k1 := by
          intro he
          exact hnd.1 (List.mem_map.mpr ⟨kv, h2, he⟩)
        rw [lookup_cons_ne _ _ hne]
        exact lookup_of_mem_nodup hnd.2 h2

theorem builtContextType_keys_nodup (tname : String)
    (kinds : List (String × PropKind)) :
    ((builtContextType tname kinds).properties.map Prod.fst).Nodup :=
  keys_foldl_setEntry_nodup kinds [] List.nodup_nil

/-- A mapped find? is untouched when the function preserves the predicate
and fixes every element satisfying it. -/
theorem find?_map_eq {α : Type} (f : α → α) (p : α → Bool) :
    ∀ l : List α, (∀ x, p (f x) = p x) → (∀ x, p x = true → f x = x) →
      (l.map f).find? p = l.find? p
  | [], _, _ => rfl
  | x :: rest, hp, hfix => by
      rw [List.map_cons, List.find?_cons, List.find?_cons]
      cases hpx : p x with
      | true =>
          rw [hp x, hpx, hfix x hpx]
      | false =>
          rw [hp x, hpx]
          exact find?_map_eq f p rest hp hfix

theorem find?_map_replace {t : ContextType} :
    ∀ {l : List ContextType} {e0 : ContextType},
      l.find? (fun e => e.name == t.name) = some e0 →
      (l.map (fun e2 => if e2.name == t.name then { t with id := e2.id } else e2)).find?
        (fun e => e.name == t.name) = some { t with id := e0.id }
  | [], e0, hf => by
      rw [List.find?] at hf
      cases hf
  | x :: rest, e0, hf => by
      by_cases hx : (x.name == t.name) = true
      · rw [List.find?_cons, hx] at hf
        dsimp only at hf
        cases hf
        rw [List.map_cons, if_pos hx, List.find?_cons]
        have hname : (({ t with id := x.id } : ContextType).name == t.name) = true := by
          simp
        rw [hname]
      · have hx2 : (x.name == t.name) = false := Bool.eq_false_iff.mpr hx
        rw [List.find?_cons, hx2] at hf
        dsimp only at hf
        rw [List.map_cons, if_neg hx, List.find?_cons, hx2]
        dsimp only
        exact find?_map_replace hf

/-- After a successful put_context_type, every stored type carrying the put
name holds exactly the put properties. -/
theorem put_context_type_props_after {st : Store} {t : ContextType} {tid : Int}
    {st' : Store} (h : put_context_type st t = .ok (tid, st')) :
    ∀ e2 ∈ st'.context_types, e2.name = t.name → e2.properties = t.properties := by
  rw [put_context_type] at h
  cases hf : st.context_types.find? (fun e => e.name == t.name) with
  | none =>
      rw [hf] at h
      cases h
      intro e2 hm hname
      rcases List.mem_append.mp hm with h2 | h2
      · exfalso
        have h3 := List.find?_eq_none.mp hf e2 h2
        simp [hname] at h3
      · have h3 := List.mem_singleton.mp h2
        rw [h3]
  | some e =>
      rw [hf] at h
      dsimp only at h
      by_cases hc : e.properties.all
          (fun kv => t.properties.lookup kv.1 == some kv.2) = true
      · rw [if_pos hc] at h
        cases h
        intro e2 hm hname
        rcases List.mem_map.mp hm with ⟨orig, horig, heq⟩
        by_cases hn : (orig.name == t.name) = true
        · rw [if_pos hn] at heq
          rw [← heq]
        · rw [if_neg hn] at heq
          exfalso
          rw [heq] at hn
          exact hn (beq_iff_eq.mpr hname)
      · rw [if_neg hc] at h
        cases h

/-- After a successful put_context_type, looking the name up finds the put
schema under the returned id. -/
theorem put_context_type_find_after {st : Store} {t : ContextType} {tid : Int}
    {st' : Store} (h : put_context_type st t = .ok (tid, st')) :
    st'.context_types.find? (fun e => e.name == t.name) = some { t with id := tid } := by
  rw [put_context_type] at h
  cases hf : st.context_types.find? (fun e => e.name == t.name) with
  | none =>
      rw [hf] at h
      cases h
      rw [List.find?_append, hf]
      simp [List.find?]
  | some e =>
      rw [hf] at h
      dsimp only at h
      by_cases hc : e.properties.all
          (fun kv => t.properties.lookup kv.1 == some kv.2) = true
      · rw [if_pos hc] at h
        cases h
        exact find?_map_replace hf
      · rw [if_neg hc] at h
        cases h

/-- put_context_type leaves lookups of every other type name untouched. -/
theorem put_context_type_find_other {st : Store} {t : ContextType} {tid : Int}
    {st' : Store} (h : put_context_type st t = .ok (tid, st'))
    {nm : String} (hne : nm ≠ t.name) :
    st'.context_types.find? (fun e => e.name == nm) =
      st.context_types.find? (fun e => e.name == nm) := by
  rw [put_context_type] at h
  cases hf : st.context_types.find? (fun e => e.name == t.name) with
  | none =>
      rw [hf] at h
      cases h
      rw [List.find?_append]
      have h1 : (List.find? (fun e => e.name == nm)
          [({ t with id := st.next_id } : ContextType)]) = none := by
        simp [List.find?, beq_eq_false_iff_ne.mpr (Ne.symm hne)]
      rw [h1, Option.or_none]
  | some e =>
      rw [hf] at h
      dsimp only at h
      by_cases hc : e.properties.all
          (fun kv => t.properties.lookup kv.1 == some kv.2) = true
      · rw [if_pos hc] at h
        cases h
        refine find?_map_eq _ _ _ ?_ ?_
        · intro x
          by_cases hx : (x.name == t.name) = true
          · rw [if_pos hx]
            have hxe : x.name = t.name := beq_iff_eq.mp hx
            show (t.name == nm) = (x.name == nm)
            rw [hxe]
          · rw [if_neg hx]
        · intro x hpx
          have hxe : x.name = nm := beq_iff_eq.mp hpx
          rw [if_neg]
          intro hx
          exact hne (hxe ▸ beq_iff_eq.mp hx)
      · rw [if_neg hc] at h
        cases h

/-- Every type stored under another name after put_context_type was already
stored before. -/
theorem put_context_type_mem_other {st : Store} {t : ContextType} {tid : Int}
    {st' : Store} (h : put_context_type st t = .ok (tid, st'))
    {nm : String} (hne : nm ≠ t.name) :
    ∀ e2 ∈ st'.context_types, e2.name = nm → e2 ∈ st.context_types := by
  rw [put_context_type] at h
  cases hf : st.context_types.find? (fun e => e.name == t.name) with
  | none =>
      rw [hf] at h
      cases h
      intro e2 hm hname
      rcases List.mem_append.mp hm with h2 | h2
      · exact h2
      · exfalso
        have h3 := List.mem_singleton.mp h2
        rw [h3] at hname
        exact hne (by rw [← hname])
  | some e =>
      rw [hf] at h
      dsimp only at h
      by_cases hc : e.properties.all
          (fun kv => t.properties.lookup kv.1 == some kv.2) = true
      · rw [if_pos hc] at h
        cases h
        intro e2 hm hname
        rcases List.mem_map.mp hm with ⟨orig, horig, heq⟩
        by_cases hn : (orig.name == t.name) = true
        · exfalso
          rw [if_pos hn] at heq
          rw [← heq] at hname
          exact hne (by rw [← hname])
        · rw [if_neg hn] at heq
          rw [← heq]
          exact horig
      · rw [if_neg hc] at h
        cases h

/-- put_context_type on a name whose stored schema already equals the put
schema returns the stored id and leaves the store untouched. -/
theorem put_context_type_stable {st : Store} {t : ContextType} {t0 : ContextType}
    (hf : st.context_types.find? (fun e => e.name == t.name) = some t0)
    (hstable : ∀ e2 ∈ st.context_types, e2.name = t.name →
      e2.properties = t.properties)
    (hnodup : (t.properties.map Prod.fst).Nodup) :
    put_context_type st t = .ok (t0.id, st) := by
  have ht0mem := List.mem_of_find?_eq_some hf
  have ht0name : t0.name = t.name := by
    have h1 := List.find?_some hf
    simpa using h1
  have ht0props : t0.properties = t.properties := hstable t0 ht0mem ht0name
  rw [put_context_type, hf]
  dsimp only
  rw [if_pos]
  · congr 1
    have hmap : st.context_types.map (fun e2 =>
        if e2.name == t.name then { t with id := e2.id } else e2) =
        st.context_types.map id := by
      refine List.map_congr_left ?_
      intro e2 hm
      by_cases hn : (e2.name == t.name) = true
      · rw [if_pos hn]
        have he : e2.properties = t.properties :=
          hstable e2 hm (beq_iff_eq.mp hn)
        cases e2 with
        | mk i n p =>
            simp only [id]
            simp only at he
            rw [show ({ t with id := i } : ContextType) =
              ContextType.mk i t.name t.properties from rfl]
            rw [← he, ← beq_iff_eq.mp hn]
      · rw [if_neg hn]
        rfl
    rw [hmap, List.map_id]
  · rw [List.all_eq_true]
    intro kv hkv
    rw [ht0props] at hkv
    rw [lookup_of_mem_nodup hnodup hkv]
    simp

theorem put_context_type_contexts_eq {st : Store} {t : ContextType} {tid : Int}
    {st' : Store} (h : put_context_type st t = .ok (tid, st')) :
    st'.contexts = st.contexts := by
  rw [put_context_type] at h
  cases hf : st.context_types.find? (fun e => e.name == t.name) with
  | none =>
      rw [hf] at h
      cases h
      rfl
  | some e =>
      rw [hf] at h
      dsimp only at h
      by_cases hc : e.properties.all
          (fun kv => t.properties.lookup kv.1 == some kv.2) = true
      · rw [if_pos hc] at h
        cases h
        rfl
      · rw [if_neg hc] at h
        cases h

theorem put_contexts_single_ok {st : Store} {c : Context} {ids : List Int}
    {st2 : Store} (h : put_contexts st [c] = .ok (ids, st2)) :
    st.contexts.any (fun c2 => c2.type_id == c.type_id && c2.name == c.name) = false ∧
    ids = [st.next_id] ∧
    st2 = { st with
      contexts := st.contexts ++ [{ c with id := st.next_id }],
      next_id := st.next_id + 1 } := by
  rw [put_contexts] at h
  by_cases hd : st.contexts.any
      (fun c2 => c2.type_id == c.type_id && c2.name == c.name) = true
  · rw [if_pos hd] at h
    cases h
  · rw [if_neg hd] at h
    rw [put_contexts] at h
    dsimp only at h
    cases h
    exact ⟨Bool.eq_false_iff.mpr hd, rfl, rfl⟩

theorem put_contexts_single_error {st : Store} {c : Context} {e : PyErr}
    {st2 : Store} (h : put_contexts st [c] = .error (e, st2)) :
    e = .alreadyExistsError ∧ st2 = st ∧
    st.contexts.any (fun c2 => c2.type_id == c.type_id && c2.name == c.name) = true := by
  rw [put_contexts] at h
  by_cases hd : st.contexts.any
      (fun c2 => c2.type_id == c.type_id && c2.name == c.name) = true
  · rw [if_pos hd] at h
    cases h
    exact ⟨rfl, rfl, hd⟩
  · rw [if_neg hd] at h
    rw [put_contexts] at h
    dsimp only at h
    cases h

/-- Full inversion of a successful _register_context_if_not_exist. -/
theorem register_context_ok_cases {st : Store} {tname cname : String}
    {props : List (String × PyVal)} {c : Context} {st' : Store}
    (h : register_context_if_not_exist st tname cname props = .ok (c, st')) :
    ∃ kinds ps ctid st1,
      contextTypeKinds props = .ok kinds ∧
      setContextProps [] props = .ok ps ∧
      put_context_type st (builtContextType tname kinds) = .ok (ctid, st1) ∧
      ((st' = { st1 with
          contexts := st1.contexts ++
            [{ id := st1.next_id, type_id := ctid, name := cname, properties := ps }],
          next_id := st1.next_id + 1 } ∧
        c = { id := st1.next_id, type_id := ctid, name := cname, properties := ps } ∧
        st1.contexts.any (fun c2 => c2.type_id == ctid && c2.name == cname) = false) ∨
       (st' = st1 ∧ get_context_by_type_and_name st1 tname cname = some c ∧
        st1.contexts.any (fun c2 => c2.type_id == ctid && c2.name == cname) = true)) := by
  rw [register_context_if_not_exist] at h
  cases hk : contextTypeKinds props with
  | error e =>
      rw [hk] at h
      cases h
  | ok kinds =>
      rw [hk] at h
      dsimp only at h
      rw [register_context_type_if_not_exist] at h
      cases hr : put_context_type st (builtContextType tname kinds) with
      | error e =>
          rw [hr] at h
          cases h
      | ok p =>
          obtain ⟨ctid, st1⟩ := p
          rw [hr] at h
          dsimp only at h
          cases hsp : setContextProps [] props with
          | error e =>
              rw [hsp] at h
              cases h
          | ok ps =>
              rw [hsp] at h
              dsimp only at h
              refine ⟨kinds, ps, ctid, st1, rfl, rfl, hr, ?_⟩
              cases hp : put_contexts st1
                  [{ type_id := ctid, name := cname, properties := ps }] with
              | ok q =>
                  obtain ⟨ids, st2⟩ := q
                  rw [hp] at h
                  obtain ⟨hany, hids, hst2⟩ := put_contexts_single_ok hp
                  subst hids
                  dsimp only at h
                  cases h
                  exact Or.inl ⟨hst2, rfl, hany⟩
              | error q =>
                  obtain ⟨e, st2⟩ := q
                  rw [hp] at h
                  obtain ⟨he, hst2, hany⟩ := put_contexts_single_error hp
                  subst he
                  rw [hst2] at h
                  dsimp only at h
                  cases hg : get_context_by_type_and_name st1 tname cname with
                  | some c2 =>
                      rw [hg] at h
                      cases h
                      exact Or.inr ⟨rfl, rfl, hany⟩
                  | none =>
                      rw [hg] at h
                      cases h

/-- What a successful level registration guarantees about the resulting
store: the level type schema is stable, the level context is findable and
equals the returned context, contexts only grew, and other type names are
untouched. -/
theorem register_context_post {st : Store} {tname cname : String}
    {props : List (String × PyVal)} {c : Context} {st' : Store}
    {kinds : List (String × PropKind)}
    (h : register_context_if_not_exist st tname cname props = .ok (c, st'))
    (hk : contextTypeKinds props = .ok kinds) :
    (∀ e2 ∈ st'.context_types, e2.name = tname →
      e2.properties = (builtContextType tname kinds).properties) ∧
    (∃ t1, st'.context_types.find? (fun e => e.name == tname) = some t1) ∧
    get_context_by_type_and_name st' tname cname = some c ∧
    (∃ tail, st'.contexts = st.contexts ++ tail) ∧
    (∀ nm, nm ≠ tname → st'.context_types.find? (fun e => e.name == nm) =
      st.context_types.find? (fun e => e.name == nm)) ∧
    (∀ nm, nm ≠ tname → ∀ e2 ∈ st'.context_types, e2.name = nm →
      e2 ∈ st.context_types) := by
  obtain ⟨kinds0, ps, ctid, st1, hk0, hps, hput, hcase⟩ := register_context_ok_cases h
  rw [hk] at hk0
  cases hk0
  have hctx1 : st1.contexts = st.contexts := put_context_type_contexts_eq hput
  rcases hcase with ⟨hst, hc, hany⟩ | ⟨hst, hget, hany⟩
  · have hty : st'.context_types = st1.context_types := by rw [hst]
    have hcs : st'.contexts = st1.contexts ++
        [{ id := st1.next_id, type_id := ctid, name := cname, properties := ps }] := by
      rw [hst]
    refine ⟨?_, ?_, ?_, ?_, ?_, ?_⟩
    · intro e2 hm hname
      rw [hty] at hm
      exact put_context_type_props_after hput e2 hm hname
    · rw [hty]
      exact ⟨_, put_context_type_find_after hput⟩
    · have hfind2 : List.find? (fun t => t.name == tname) st1.context_types =
          some ({ builtContextType tname kinds with id := ctid } : ContextType) :=
        put_context_type_find_after hput
      rw [get_context_by_type_and_name, hty, hfind2]
      dsimp only
      rw [hcs, List.find?_append]
      have hnone : List.find?
          (fun c2 => c2.type_id == ctid && c2.name == cname) st1.contexts = none :=
        List.find?_eq_none.mpr (List.any_eq_false.mp hany)
      rw [hnone, hc]
      simp [List.find?]
    · rw [hcs, hctx1]
      exact ⟨_, rfl⟩
    · intro nm hne
      rw [hty]
      exact put_context_type_find_other hput hne
    · intro nm hne e2 hm
      rw [hty] at hm
      exact put_context_type_mem_other hput hne e2 hm
  · subst hst
    refine ⟨?_, ?_, hget, ?_, ?_, ?_⟩
    · intro e2 hm hname
      exact put_context_type_props_after hput e2 hm hname
    · exact ⟨_, put_context_type_find_after hput⟩
    · rw [hctx1]
      exact ⟨[], (List.append_nil _).symm⟩
    · intro nm hne
      exact put_context_type_find_other hput hne
    · intro nm hne
      exact put_context_type_mem_other hput hne

/-- On a store where the level has already been registered — type schema
stable, context present — a level registration returns the stored context
and leaves the store exactly as it was. -/
theorem register_context_stable {st : Store} {tname cname : String}
    {props : List (String × PyVal)} {kinds : List (String × PropKind)}
    {ps : List (String × CtxPropVal)} {t1 : ContextType} {c0 : Context}
    (hk : contextTypeKinds props = .ok kinds)
    (hps : setContextProps [] props = .ok ps)
    (hf : st.context_types.find? (fun e => e.name == tname) = some t1)
    (hstable : ∀ e2 ∈ st.context_types, e2.name = tname →
      e2.properties = (builtContextType tname kinds).properties)
    (hc : get_context_by_type_and_name st tname cname = some c0) :
    register_context_if_not_exist st tname cname props = .ok (c0, st) := by
  have hf2 : st.context_types.find?
      (fun e => e.name == (builtContextType tname kinds).name) = some t1 := hf
  have hstable2 : ∀ e2 ∈ st.context_types,
      e2.name = (builtContextType tname kinds).name →
      e2.properties = (builtContextType tname kinds).properties := hstable
  have hput := put_context_type_stable hf2 hstable2
    (builtContextType_keys_nodup tname kinds)
  have hcfind : st.contexts.find?
      (fun c2 => c2.type_id == t1.id && c2.name == cname) = some c0 := by
    rw [get_context_by_type_and_name, hf] at hc
    exact hc
  have hpc0 := List.find?_some hcfind
  have hany : st.contexts.any
      (fun c2 => c2.type_id == t1.id && c2.name == cname) = true :=
    List.any_eq_true.mpr ⟨c0, List.mem_of_find?_eq_some hcfind, hpc0⟩
  rw [register_context_if_not_exist, hk]
  dsimp only
  rw [register_context_type_if_not_exist, hput]
  dsimp only
  rw [hps]
  dsimp only
  rw [put_contexts, if_pos hany]
  dsimp only
  rw [hc]

/-- Registering one level leaves every other level name's types untouched
and only appends contexts. -/
theorem register_context_preserves {st : Store} {tname2 cname2 : String}
    {props2 : List (String × PyVal)} {c2 : Context} {st' : Store}
    (h : register_context_if_not_exist st tname2 cname2 props2 = .ok (c2, st'))
    {tname : String} (hne : tname ≠ tname2) :
    st'.context_types.find? (fun e => e.name == tname) =
      st.context_types.find? (fun e => e.name == tname) ∧
    (∀ e2 ∈ st'.context_types, e2.name = tname → e2 ∈ st.context_types) ∧
    (∃ tail, st'.contexts = st.contexts ++ tail) := by
  obtain ⟨kinds0, ps, ctid, st1, hk0, hps, hput, hcase⟩ := register_context_ok_cases h
  have hctx1 : st1.contexts = st.contexts := put_context_type_contexts_eq hput
  have hne2 : tname ≠ (builtContextType tname2 kinds0).name := hne
  rcases hcase with ⟨hst, hc, hany⟩ | ⟨hst, hget, hany⟩
  · have hty : st'.context_types = st1.context_types := by rw [hst]
    have hcs : st'.contexts = st1.contexts ++
        [{ id := st1.next_id, type_id := ctid, name := cname2, properties := ps }] := by
      rw [hst]
    refine ⟨?_, ?_, ?_⟩
    · rw [hty]
      exact put_context_type_find_other hput hne2
    · intro e2 hm
      rw [hty] at hm
      exact put_context_type_mem_other hput hne2 e2 hm
    · rw [hcs, hctx1]
      exact ⟨_, rfl⟩
  · subst hst
    refine ⟨put_context_type_find_other hput hne2, ?_, ?_⟩
    · intro e2 hm
      exact put_context_type_mem_other hput hne2 e2 hm
    · rw [hctx1]
      exact ⟨[], (List.append_nil _).symm⟩

/-- A context lookup survives stores whose types agree on the name and
whose context list only grew. -/
theorem get_context_preserved {st st' : Store} {tname cname : String}
    {c0 : Context}
    (hfind : st'.context_types.find? (fun e => e.name == tname) =
      st.context_types.find? (fun e => e.name == tname))
    (happend : ∃ tail, st'.contexts = st.contexts ++ tail)
    (hc : get_context_by_type_and_name st tname cname = some c0) :
    get_context_by_type_and_name st' tname cname = some c0 := by
  rw [get_context_by_type_and_name] at hc ⊢
  cases hf : st.context_types.find? (fun t => t.name == tname) with
  | none =>
      rw [hf] at hc
      cases hc
  | some t1 =>
      rw [hf] at hc
      rw [hfind, hf]
      dsimp only at hc ⊢
      obtain ⟨tail, htail⟩ := happend
      rw [htail, List.find?_append, hc]
      rfl

/-- A successful register_contexts_if_not_exists is idempotent: running it
again from the resulting store returns the same contexts and changes
nothing. -/
theorem register_contexts_twice {st : Store} {pipeline_info : PipelineInfo}
    {component_info : ComponentInfo} {r1 : List Context} {st1 : Store}
    (H : register_contexts_if_not_exists st pipeline_info component_info =
      .ok (r1, st1)) :
    register_contexts_if_not_exists st1 pipeline_info component_info =
      .ok (r1, st1) := by
  rw [register_contexts_if_not_exists] at H
  cases hA : register_context_if_not_exist st CONTEXT_TYPE_PIPELINE
      pipeline_info.pipeline_context_name
      [("pipeline_name", .pyStr pipeline_info.pipeline_name)] with
  | error e =>
      rw [hA] at H
      cases H
  | ok pA =>
      obtain ⟨cA, sA⟩ := pA
      rw [hA] at H
      dsimp only at H
      obtain ⟨kindsA, psA, ctidA, stA1, hkA, hpsA, _, _⟩ :=
        register_context_ok_cases hA
      obtain ⟨hstabA, ⟨t1A, hfindA⟩, hgetA, -, -, -⟩ :=
        register_context_post hA hkA
      by_cases hrun : optTruthy pipeline_info.run_id = true
      · rw [if_pos hrun] at H
        cases hB : register_context_if_not_exist sA CONTEXT_TYPE_PIPELINE_RUN
            pipeline_info.pipeline_run_context_name
            [("pipeline_name", .pyStr pipeline_info.pipeline_name),
             ("run_id", pyOfRunId pipeline_info.run_id)] with
        | error e =>
            rw [hB] at H
            cases H
        | ok pB =>
            obtain ⟨cB, sB⟩ := pB
            rw [hB] at H
            dsimp only at H
            obtain ⟨kindsB, psB, ctidB, stB1, hkB, hpsB, _, _⟩ :=
              register_context_ok_cases hB
            obtain ⟨hstabB, ⟨t1B, hfindB⟩, hgetB, -, -, -⟩ :=
              register_context_post hB hkB
            obtain ⟨hfBA, hmBA, hcsBA⟩ :=
              register_context_preserves hB
                (show CONTEXT_TYPE_PIPELINE ≠ CONTEXT_TYPE_PIPELINE_RUN by decide)
            cases hC : register_context_if_not_exist sB CONTEXT_TYPE_COMPONENT_RUN
                (component_run_context_name pipeline_info component_info)
                [("pipeline_name", .pyStr pipeline_info.pipeline_name),
                 ("run_id", pyOfRunId pipeline_info.run_id),
                 ("component_id", .pyStr component_info.component_id)] with
            | error e =>
                rw [hC] at H
                cases H
            | ok pC =>
                obtain ⟨cC, sC⟩ := pC
                rw [hC] at H
                dsimp only at H
                cases H
                obtain ⟨kindsC, psC, ctidC, stC1, hkC, hpsC, _, _⟩ :=
                  register_context_ok_cases hC
                obtain ⟨hstabC, ⟨t1C, hfindC⟩, hgetC, -, -, -⟩ :=
                  register_context_post hC hkC
                obtain ⟨hfCA, hmCA, hcsCA⟩ :=
                  register_context_preserves hC
                    (show CONTEXT_TYPE_PIPELINE ≠ CONTEXT_TYPE_COMPONENT_RUN by decide)
                obtain ⟨hfCB, hmCB, hcsCB⟩ :=
                  register_context_preserves hC
                    (show CONTEXT_TYPE_PIPELINE_RUN ≠ CONTEXT_TYPE_COMPONENT_RUN by decide)
                have hstableA2 : register_context_if_not_exist st1
                    CONTEXT_TYPE_PIPELINE pipeline_info.pipeline_context_name
                    [("pipeline_name", .pyStr pipeline_info.pipeline_name)] =
                    .ok (cA, st1) := by
                  have hfA2 : st1.context_types.find?
                      (fun e => e.name == CONTEXT_TYPE_PIPELINE) = some t1A := by
                    rw [hfCA, hfBA]
                    exact hfindA
                  refine register_context_stable hkA hpsA hfA2 ?_ ?_
                  · intro e2 hm hname
                    exact hstabA e2 (hmBA e2 (hmCA e2 hm hname) hname) hname
                  · exact get_context_preserved hfCA hcsCA
                      (get_context_preserved hfBA hcsBA hgetA)
                have hstableB2 : register_context_if_not_exist st1
                    CONTEXT_TYPE_PIPELINE_RUN pipeline_info.pipeline_run_context_name
                    [("pipeline_name", .pyStr pipeline_info.pipeline_name),
                     ("run_id", pyOfRunId pipeline_info.run_id)] =
                    .ok (cB, st1) := by
                  have hfB2 : st1.context_types.find?
                      (fun e => e.name == CONTEXT_TYPE_PIPELINE_RUN) = some t1B := by
                    rw [hfCB]
                    exact hfindB
                  refine register_context_stable hkB hpsB hfB2 ?_ ?_
                  · intro e2 hm hname
                    exact hstabB e2 (hmCB e2 hm hname) hname
                  · exact get_context_preserved hfCB hcsCB hgetB
                have hstableC2 : register_context_if_not_exist st1
                    CONTEXT_TYPE_COMPONENT_RUN
                    (component_run_context_name pipeline_info component_info)
                    [("pipeline_name", .pyStr pipeline_info.pipeline_name),
                     ("run_id", pyOfRunId pipeline_info.run_id),
                     ("component_id", .pyStr component_info.component_id)] =
                    .ok (cC, st1) := by
                  exact register_context_stable hkC hpsC hfindC hstabC hgetC
                rw [register_contexts_if_not_exists, hstableA2]
                dsimp only
                rw [if_pos hrun, hstableB2]
                dsimp only
                rw [hstableC2]
      · rw [if_neg hrun] at H
        dsimp only at H
        cases hC : register_context_if_not_exist sA CONTEXT_TYPE_COMPONENT_RUN
            (component_run_context_name pipeline_info component_info)
            [("pipeline_name", .pyStr pipeline_info.pipeline_name),
             ("run_id", pyOfRunId pipeline_info.run_id),
             ("component_id", .pyStr component_info.component_id)] with
        | error e =>
            rw [hC] at H
            cases H
        | ok pC =>
            obtain ⟨cC, sC⟩ := pC
            rw [hC] at H
            dsimp only at H
            cases H
            obtain ⟨kindsC, psC, ctidC, stC1, hkC, hpsC, _, _⟩ :=
              register_context_ok_cases hC
            obtain ⟨hstabC, ⟨t1C, hfindC⟩, hgetC, -, -, -⟩ :=
              register_context_post hC hkC
            obtain ⟨hfCA, hmCA, hcsCA⟩ :=
              register_context_preserves hC
                (show CONTEXT_TYPE_PIPELINE ≠ CONTEXT_TYPE_COMPONENT_RUN by decide)
            have hstableA2 : register_context_if_not_exist st1
                CONTEXT_TYPE_PIPELINE pipeline_info.pipeline_context_name
                [("pipeline_name", .pyStr pipeline_info.pipeline_name)] =
                .ok (cA, st1) := by
              have hfA2 : st1.context_types.find?
                  (fun e => e.name == CONTEXT_TYPE_PIPELINE) = some t1A := by
                rw [hfCA]
                exact hfindA
              refine register_context_stable hkA hpsA hfA2 ?_ ?_
              · intro e2 hm hname
                exact hstabA e2 (hmCA e2 hm hname) hname
              · exact get_context_preserved hfCA hcsCA hgetA
            have hstableC2 : register_context_if_not_exist st1
                CONTEXT_TYPE_COMPONENT_RUN
                (component_run_context_name pipeline_info component_info)
                [("pipeline_name", .pyStr pipeline_info.pipeline_name),
                 ("run_id", pyOfRunId pipeline_info.run_id),
                 ("component_id", .pyStr component_info.component_id)] =
                .ok (cC, st1) := by
              exact register_context_stable hkC hpsC hfindC hstabC hgetC
            rw [register_contexts_if_not_exists, hstableA2]
            dsimp only
            rw [if_neg hrun]
            dsimp only
            rw [hstableC2]

/-- C7: context registration is idempotent — a second
register_contexts_if_not_exists with the same pipeline/component identity
returns contexts with the same names and the same ids as the first call
(indeed the same contexts, leaving the store unchanged), because each level
attempts an insert and on a duplicate type/name conflict fetches and
returns the existing context. -/
theorem c7_register_contexts_idempotent :
    ∀ (st : Store) (pipeline_info : PipelineInfo) (component_info : ComponentInfo)
      (r1 r2 : List Context) (st1 st2 : Store),
      register_contexts_if_not_exists st pipeline_info component_info =
        .ok (r1, st1) →
      register_contexts_if_not_exists st1 pipeline_info component_info =
        .ok (r2, st2) →
      r2.map (fun c => c.name) = r1.map (fun c => c.name) ∧
      r2.map (fun c => c.id) = r1.map (fun c => c.id) := by
  intro st pipeline_info component_info r1 r2 st1 st2 h1 h2
  rw [register_contexts_twice h1] at h2
  cases h2
  exact ⟨rfl, rfl⟩

/-- The three contexts created by registering piR/ci0 on the empty store. -/
def ctxsR : List Context :=
  [Context.mk 2 1 "p" [("pipeline_name", .stringValue "p")],
   Context.mk 4 3 "p.r1"
     [("run_id", .stringValue "r1"), ("pipeline_name", .stringValue "p")],
   Context.mk 6 5 "p.r1.c"
     [("component_id", .stringValue "c"), ("run_id", .stringValue "r1"),
      ("pipeline_name", .stringValue "p")]]

/-- The store after that registration. -/
def stR : Store :=
  { contexts := ctxsR,
    context_types :=
      [ContextType.mk 1 "pipeline" [("pipeline_name", .STRING)],
       ContextType.mk 3 "run" [("run_id", .STRING), ("pipeline_name", .STRING)],
       ContextType.mk 5 "component_run"
         [("component_id", .STRING), ("run_id", .STRING),
          ("pipeline_name", .STRING)]],
    next_id := 7 }

/-- C7 witness: both registrations evaluate on concrete data — the first on
the empty store, the second on the store it produced — and the theorem
yields equal name and id lists. -/
theorem c7_witness :
    ctxsR.map (fun c => c.name) = ctxsR.map (fun c => c.name) ∧
    ctxsR.map (fun c => c.id) = ctxsR.map (fun c => c.id) :=
  c7_register_contexts_idempotent {} piR ci0 ctxsR ctxsR stR stR rfl rfl

/-! ## Lemmas: cache lookup -/

instance : IsTotal Int (fun a b => b ≤ a) := ⟨fun a b => le_total b a⟩

instance : IsTrans Int (fun a b => b ≤ a) := ⟨fun _ _ _ h1 h2 => le_trans h2 h1⟩

theorem sortDesc_sorted (l : List Int) :
    List.Sorted (fun a b => b ≤ a) (sortDesc l) :=
  List.sorted_insertionSort _ l

theorem take_min_length (l : List Int) (n : Nat) :
    l.take (min l.length n) = l.take n := by
  rcases Nat.le_total l.length n with h | h
  · simp [Nat.min_eq_left h, List.take_of_length_le h, List.take_of_length_le]
  · simp [Nat.min_eq_right h]

/-- The candidate scan of _get_cached_execution_id is a first-match search
for exact input-id set equality. -/
theorem get_cached_execution_id_eq_find (st : Store)
    (input_dict : List (String × List Artifact)) :
    ∀ cands : List Int, get_cached_execution_id st input_dict cands =
      cands.find? (fun eid =>
        decide (inputIdSet input_dict = executionInputIdSet st eid))
  | [] => rfl
  | eid :: rest => by
      rw [get_cached_execution_id, List.find?_cons]
      by_cases hq : inputIdSet input_dict = executionInputIdSet st eid
      · rw [if_pos hq]
        rw [decide_eq_true hq]
      · rw [if_neg hq]
        rw [decide_eq_false hq]
        dsimp only
        exact get_cached_execution_id_eq_find st input_dict rest

/-- C1: with the pipeline context present (and the template prepared), the
cache lookup returns exactly the first id, in descending id order and
within the 100-candidate cap, whose INPUT/DECLARED_INPUT artifact-id set
equals the supplied input-id set — none when no capped candidate matches;
and the candidate order really is descending. -/
theorem c1_previous_execution_cache_lookup :
    ∀ (env : Env) (st : Store) (input_artifacts : List (String × List Artifact))
      (exec_properties : Props) (pipeline_info : PipelineInfo)
      (component_info : ComponentInfo) (tmpl : Execution) (st1 : Store)
      (context : Context),
      prepare_execution env st EXECUTION_STATE_COMPLETE exec_properties
        pipeline_info component_info = .ok (tmpl, st1) →
      get_pipeline_context st1 pipeline_info = some context →
      (previous_execution env st input_artifacts exec_properties pipeline_info
        component_info = .ok
          (((sortDesc (((get_executions_by_context st1 context.id).filter
              (fun e => is_eligible_previous_execution tmpl e)).map
              (fun e => e.id))).take MAX_EXECUTIONS_FOR_CACHE).find?
            (fun eid =>
              decide (inputIdSet input_artifacts = executionInputIdSet st1 eid)),
           st1) ∧
       List.Sorted (fun a b => b ≤ a)
         (sortDesc (((get_executions_by_context st1 context.id).filter
           (fun e => is_eligible_previous_execution tmpl e)).map
           (fun e => e.id)))) := by
  intro env st input_artifacts exec_properties pipeline_info component_info
    tmpl st1 context hprep hctx
  constructor
  · rw [previous_execution, hprep]
    dsimp only
    rw [hctx]
    dsimp only
    rw [get_cached_execution_id_eq_find, take_min_length]
  · exact sortDesc_sorted _

/-- A store holding the execution type CT and the registered pipeline
context for pi0. -/
def stC : Store :=
  { execution_types := [{ id := 1, name := "CT", properties :=
      [("state", .STRING), ("pipeline_name", .STRING), ("pipeline_root", .STRING),
       ("run_id", .STRING), ("component_id", .STRING)] }],
    context_types := [ContextType.mk 2 "pipeline" [("pipeline_name", .STRING)]],
    contexts := [Context.mk 3 2 "p" [("pipeline_name", .stringValue "p")]],
    next_id := 4 }

/-- C1 witness: the characterization applied on stC with no executions —
the capped candidate list is empty and the lookup returns none. -/
theorem c1_witness :
    previous_execution env0 stC [] [] pi0 ci0 = .ok
      (((sortDesc (((get_executions_by_context stC
          (Context.mk 3 2 "p" [("pipeline_name", .stringValue "p")]).id).filter
          (fun e => is_eligible_previous_execution
            (Execution.mk 0 1 (executionProperties env0 EXECUTION_STATE_COMPLETE
              [] pi0 ci0)) e)).map
          (fun e => e.id))).take MAX_EXECUTIONS_FOR_CACHE).find?
        (fun eid => decide (inputIdSet [] = executionInputIdSet stC eid)),
       stC) ∧
    List.Sorted (fun a b => b ≤ a)
      (sortDesc (((get_executions_by_context stC
        (Context.mk 3 2 "p" [("pipeline_name", .stringValue "p")]).id).filter
        (fun e => is_eligible_previous_execution
          (Execution.mk 0 1 (executionProperties env0 EXECUTION_STATE_COMPLETE
            [] pi0 ci0)) e)).map
        (fun e => e.id))) :=
  c1_previous_execution_cache_lookup env0 stC [] [] pi0 ci0
    (Execution.mk 0 1 (executionProperties env0 EXECUTION_STATE_COMPLETE [] pi0 ci0))
    stC (Context.mk 3 2 "p" [("pipeline_name", .stringValue "p")]) rfl rfl

/-! ## Lemmas: fetch_previous_result_artifacts consistency -/

/-- The OUTPUT events recorded for one output name of an execution. -/
def outputEventsFor (st : Store) (execution_id : Int) (name : String) : List Event :=
  (get_events_by_execution_ids st execution_id).filter
    (fun ev => ev.type == EventType.OUTPUT && ev.key == name)

theorem keys_setEntry_toFinset {κ β : Type} [DecidableEq κ]
    (d : List (κ × β)) (k : κ) (v : β) :
    ((setEntry d k v).map Prod.fst).toFinset =
      insert k ((d.map Prod.fst).toFinset) := by
  ext x
  simp only [setEntry, List.map_cons, List.toFinset_cons, Finset.mem_insert,
    List.mem_toFinset, List.mem_map, List.mem_filter, decide_eq_true_eq]
  constructor
  · rintro (h | ⟨kv, ⟨hkv, -⟩, hx⟩)
    · exact Or.inl h
    · exact Or.inr ⟨kv, hkv, hx⟩
  · rintro (h | ⟨kv, hkv, hx⟩)
    · exact Or.inl h
    · by_cases hxk : x = k
      · exact Or.inl hxk
      · exact Or.inr ⟨kv, ⟨hkv, fun he => hxk (by rw [← hx, he])⟩, hx⟩

theorem group_output_artifacts_spec (st : Store) :
    ∀ (evs : List Event) (acc g : List (String × List (Int × Artifact))),
      group_output_artifacts st evs acc = .ok g →
      (∀ name inner, acc.lookup name = some inner → (inner.map Prod.fst).Nodup) →
      ∀ name : String,
        (g.lookup name = none →
          acc.lookup name = none ∧
          evs.filter (fun ev => ev.type == EventType.OUTPUT && ev.key == name) = []) ∧
        (acc.lookup name = none →
          evs.filter (fun ev => ev.type == EventType.OUTPUT && ev.key == name) = [] →
          g.lookup name = none) ∧
        (∀ inner, g.lookup name = some inner →
          (inner.map Prod.fst).Nodup ∧
          (inner.map Prod.fst).toFinset =
            (((acc.lookup name).getD []).map Prod.fst).toFinset ∪
            ((evs.filter (fun ev => ev.type == EventType.OUTPUT && ev.key == name)).map
              (fun ev => ev.index)).toFinset)
  | [], acc, g, hok, haccn, name => by
      rw [group_output_artifacts] at hok
      cases hok
      refine ⟨fun hn => ⟨hn, rfl⟩, fun h _ => h, ?_⟩
      intro inner hi
      refine ⟨haccn name inner hi, ?_⟩
      rw [hi]
      simp
  | ev :: rest, acc, g, hok, haccn, name => by
      rw [group_output_artifacts] at hok
      by_cases hty : (ev.type == EventType.OUTPUT) = true
      · rw [if_pos hty] at hok
        cases hga : get_artifacts_by_id st ev.artifact_id with
        | nil =>
            rw [hga] at hok
            cases hok
        | cons a tail =>
            cases tail with
            | cons b tail2 =>
                rw [hga] at hok
                cases hok
            | nil =>
                rw [hga] at hok
                dsimp only at hok
                have hinner0 : (((acc.lookup ev.key).getD []).map Prod.fst).Nodup := by
                  cases hacck : acc.lookup ev.key with
                  | none => simp
                  | some i0 =>
                      simpa using haccn ev.key i0 hacck
                have hacc2 : ∀ nm inner,
                    (setEntry acc ev.key
                      (setEntry ((acc.lookup ev.key).getD []) ev.index a)).lookup nm =
                      some inner → (inner.map Prod.fst).Nodup := by
                  intro nm inner hl
                  by_cases hnm : nm = ev.key
                  · subst hnm
                    rw [lookup_setEntry_self] at hl
                    cases hl
                    exact keys_setEntry_nodup hinner0 ev.index a
                  · rw [lookup_setEntry_ne _ _ hnm] at hl
                    exact haccn nm inner hl
                have IH := group_output_artifacts_spec st rest _ g hok hacc2 name
                by_cases hkey : name = ev.key
                · subst hkey
                  have hpred : (ev.type == EventType.OUTPUT && ev.key == ev.key) = true := by
                    simp only [Bool.and_eq_true]
                    exact ⟨hty, by simp⟩
                  rw [List.filter_cons]
                  rw [if_pos hpred]
                  have hacc2name : (setEntry acc ev.key
                      (setEntry ((acc.lookup ev.key).getD []) ev.index a)).lookup ev.key =
                      some (setEntry ((acc.lookup ev.key).getD []) ev.index a) :=
                    lookup_setEntry_self _ _ _
                  refine ⟨?_, ?_, ?_⟩
                  · intro hn
                    exfalso
                    have h1 := (IH.1 hn).1
                    rw [hacc2name] at h1
                    cases h1
                  · intro _ hfe
                    exact absurd hfe (List.cons_ne_nil _ _)
                  · intro inner hi
                    obtain ⟨hnd, hfs⟩ := IH.2.2 inner hi
                    refine ⟨hnd, ?_⟩
                    rw [hfs, hacc2name]
                    simp only [Option.getD_some]
                    rw [keys_setEntry_toFinset, List.map_cons, List.toFinset_cons]
                    ext x
                    simp only [Finset.mem_union, Finset.mem_insert, List.mem_toFinset]
                    tauto
                · have hkne : (ev.key == name) = false :=
                    beq_eq_false_iff_ne.mpr (fun he => hkey he.symm)
                  have hpred : (ev.type == EventType.OUTPUT && ev.key == name) = false := by
                    rw [hkne, Bool.and_false]
                  rw [List.filter_cons]
                  rw [if_neg (by simp [hpred] :
                    ¬ (ev.type == EventType.OUTPUT && ev.key == name) = true)]
                  have hacc2name : (setEntry acc ev.key
                      (setEntry ((acc.lookup ev.key).getD []) ev.index a)).lookup name =
                      acc.lookup name :=
                    lookup_setEntry_ne _ _ hkey
                  refine ⟨?_, ?_, ?_⟩
                  · intro hn
                    have h1 := IH.1 hn
                    rw [hacc2name] at h1
                    exact h1
                  · intro ha hf
                    refine IH.2.1 ?_ hf
                    rw [hacc2name]
                    exact ha
                  · intro inner hi
                    obtain ⟨hnd, hfs⟩ := IH.2.2 inner hi
                    refine ⟨hnd, ?_⟩
                    rw [hfs, hacc2name]
      · rw [if_neg hty] at hok
        have hty2 : (ev.type == EventType.OUTPUT) = false := Bool.eq_false_iff.mpr hty
        have hpred : (ev.type == EventType.OUTPUT && ev.key == name) = false := by
          rw [hty2, Bool.false_and]
        rw [List.filter_cons]
        rw [if_neg (by simp [hpred] :
          ¬ (ev.type == EventType.OUTPUT && ev.key == name) = true)]
        exact group_output_artifacts_spec st rest acc g hok haccn name

theorem attach_outputs_error (st : Store) (g : List (String × List (Int × Artifact))) :
    ∀ l : List (String × List Artifact),
      (∃ entry ∈ l, g.lookup entry.1 = none ∨
        ∃ inner, g.lookup entry.1 = some inner ∧ entry.2.length ≠ inner.length) →
      ∃ e st2, attach_outputs st g l = .error (e, st2)
  | [], hbad => by
      obtain ⟨entry, hm, -⟩ := hbad
      exact absurd hm (List.not_mem_nil entry)
  | (output_name, output_list) :: rest, hbad => by
      rw [attach_outputs]
      obtain ⟨entry, hm, hb⟩ := hbad
      rcases List.mem_cons.mp hm with h2 | h2
      · subst h2
        dsimp only at hb
        cases hg : g.lookup output_name with
        | none => exact ⟨_, _, rfl⟩
        | some inner =>
            dsimp only
            rcases hb with hb1 | ⟨inner2, hb2, hlen⟩
            · rw [hg] at hb1
              cases hb1
            · rw [hg, Option.some.injEq] at hb2
              subst hb2
              rw [if_pos (bne_iff_ne.mpr hlen)]
              exact ⟨_, _, rfl⟩
      · cases hg : g.lookup output_name with
        | none => exact ⟨_, _, rfl⟩
        | some inner =>
            dsimp only
            by_cases hlen : (output_list.length != inner.length) = true
            · rw [if_pos hlen]
              exact ⟨_, _, rfl⟩
            · rw [if_neg hlen]
              cases hai : attach_indices inner 0 output_list with
              | none => exact ⟨_, _, rfl⟩
              | some l2 =>
                  obtain ⟨e, st2, he⟩ := attach_outputs_error st g rest ⟨entry, h2, hb⟩
                  rw [he]
                  exact ⟨e, st2, rfl⟩

/-- C9: fetch_previous_result_artifacts fails (rather than returning a
partial result) whenever some requested output name has no OUTPUT events
recorded for the execution, or the number of distinct event indices
recorded for that name differs from the number of artifacts the caller
expects for it. -/
theorem c9_fetch_consistency_error :
    ∀ (st : Store) (output_dict : List (String × List Artifact)) (execution_id : Int),
      (∃ entry ∈ output_dict,
        outputEventsFor st execution_id entry.1 = [] ∨
        ((outputEventsFor st execution_id entry.1).map
          (fun ev => ev.index)).dedup.length ≠ entry.2.length) →
      ∃ e st2, fetch_previous_result_artifacts st output_dict execution_id =
        .error (e, st2) := by
  intro st output_dict execution_id hbad
  rw [fetch_previous_result_artifacts]
  cases hg : group_output_artifacts st
      (get_events_by_execution_ids st execution_id) [] with
  | error e0 => exact ⟨e0.1, e0.2, rfl⟩
  | ok g =>
      have hspec := group_output_artifacts_spec st
        (get_events_by_execution_ids st execution_id) [] g hg
        (by intro nm i h; cases h)
      obtain ⟨entry, hm, hb⟩ := hbad
      have hbad2 : g.lookup entry.1 = none ∨
          ∃ inner, g.lookup entry.1 = some inner ∧ entry.2.length ≠ inner.length := by
        rcases hb with hempty | hcount
        · exact Or.inl ((hspec entry.1).2.1 rfl hempty)
        · cases hgl : g.lookup entry.1 with
          | none => exact Or.inl rfl
          | some inner =>
              refine Or.inr ⟨inner, rfl, fun hlen => hcount ?_⟩
              obtain ⟨hnd, hfs⟩ := (hspec entry.1).2.2 inner hgl
              have hfs2 : (inner.map Prod.fst).toFinset =
                  ((outputEventsFor st execution_id entry.1).map
                    (fun ev => ev.index)).toFinset := by
                rw [hfs]
                exact Finset.empty_union _
              calc ((outputEventsFor st execution_id entry.1).map
                    (fun ev => ev.index)).dedup.length
                  = ((outputEventsFor st execution_id entry.1).map
                    (fun ev => ev.index)).toFinset.card :=
                    (List.card_toFinset _).symm
                _ = (inner.map Prod.fst).toFinset.card := by rw [hfs2]
                _ = (inner.map Prod.fst).length := List.toFinset_card_of_nodup hnd
                _ = inner.length := List.length_map _ _
                _ = entry.2.length := hlen.symm
      obtain ⟨e, st2, he⟩ := attach_outputs_error st g output_dict ⟨entry, hm, hbad2⟩
      dsimp only
      rw [he]
      exact ⟨e, st2, rfl⟩

/-- A store with one COMPLETE execution (id 10) that recorded a single
OUTPUT event, model[0] = artifact 5. -/
def stF : Store :=
  { artifacts := [Artifact.mk 5 4 "Model" "published"],
    executions := [Execution.mk 10 1 [("state", "complete")]],
    events := [prepare_event 10 5 "model" 0 .OUTPUT],
    next_id := 11 }

/-- C9 witness: requesting an output name with no recorded events, and a
name with the wrong multiplicity, both fail. -/
theorem c9_witness :
    (∃ e st2, fetch_previous_result_artifacts stF
      [("other", [({} : Artifact)])] 10 = .error (e, st2)) ∧
    (∃ e st2, fetch_previous_result_artifacts stF
      [("model", [({} : Artifact), ({} : Artifact)])] 10 = .error (e, st2)) := by
  constructor
  · exact c9_fetch_consistency_error stF [("other", [({} : Artifact)])] 10
      ⟨("other", [({} : Artifact)]), by decide, by exact Or.inl rfl⟩
  · exact c9_fetch_consistency_error stF
      [("model", [({} : Artifact), ({} : Artifact)])] 10
      ⟨("model", [({} : Artifact), ({} : Artifact)]), by decide,
        by exact Or.inr (by decide)⟩

/-! ## Lemmas: publish_execution -/

/-- One event per (key, index) slot, indices counting from the start value,
each carrying the artifact id at event-construction time. -/
def slotEvents (execution_id : Int) (key : String) (t : EventType) :
    Int → List Artifact → List Event
  | _, [] => []
  | index, a :: rest =>
      prepare_event execution_id a.id key index t ::
        slotEvents execution_id key t (index + 1) rest

/-- All events publish_execution builds for an input/output dict. -/
def dictEvents (execution_id : Int) (t : EventType)
    (d : List (String × List Artifact)) : List Event :=
  (d.map (fun kv => slotEvents execution_id kv.1 t 0 kv.2)).flatten

theorem collect_input_events_for_key_ok (eid : Int) (key : String) :
    ∀ (l : List Artifact) (index : Int), (∀ a ∈ l, a.id ≠ 0) →
      collect_input_events_for_key eid key index l =
        .ok (slotEvents eid key .INPUT index l)
  | [], _, _ => rfl
  | a :: rest, index, h => by
      rw [collect_input_events_for_key]
      have ha : (a.id == 0) = false :=
        beq_eq_false_iff_ne.mpr (h a (List.mem_cons_self _ _))
      rw [if_neg (by simp [ha])]
      rw [collect_input_events_for_key_ok eid key rest (index + 1)
        (fun a2 h2 => h a2 (List.mem_cons_of_mem _ h2))]
      rfl

theorem collect_input_events_ok (eid : Int) :
    ∀ d : List (String × List Artifact), (∀ kv ∈ d, ∀ a ∈ kv.2, a.id ≠ 0) →
      collect_input_events eid d = .ok (dictEvents eid .INPUT d)
  | [], _ => rfl
  | (key, l) :: rest, h => by
      rw [collect_input_events]
      rw [collect_input_events_for_key_ok eid key l 0
        (fun a ha => h (key, l) (List.mem_cons_self _ _) a ha)]
      rw [collect_input_events_ok eid rest
        (fun kv hkv a ha => h kv (List.mem_cons_of_mem _ hkv) a ha)]
      simp only [dictEvents, List.map_cons, List.flatten_cons]

theorem publish_outputs_for_key_all_ids (eid : Int) (state key : String) :
    ∀ (l : List Artifact) (index : Int) (st : Store), (∀ a ∈ l, a.id ≠ 0) →
      publish_outputs_for_key eid state key index l st =
        .ok ((slotEvents eid key .OUTPUT index l, l), st)
  | [], _, _, _ => rfl
  | a :: rest, index, st, h => by
      rw [publish_outputs_for_key]
      have ha : (a.id == 0) = false :=
        beq_eq_false_iff_ne.mpr (h a (List.mem_cons_self _ _))
      rw [if_neg (by simp [ha])]
      rw [publish_outputs_for_key_all_ids eid state key rest (index + 1) st
        (fun a2 h2 => h a2 (List.mem_cons_of_mem _ h2))]
      rfl

theorem publish_outputs_all_ids (eid : Int) (state : String) :
    ∀ (d : List (String × List Artifact)) (st : Store),
      (∀ kv ∈ d, ∀ a ∈ kv.2, a.id ≠ 0) →
      publish_outputs eid state d st = .ok ((dictEvents eid .OUTPUT d, d), st)
  | [], _, _ => rfl
  | (key, l) :: rest, st, h => by
      rw [publish_outputs]
      rw [publish_outputs_for_key_all_ids eid state key l 0 st
        (fun a ha => h (key, l) (List.mem_cons_self _ _) a ha)]
      dsimp only
      rw [publish_outputs_all_ids eid state rest st
        (fun kv hkv a ha => h kv (List.mem_cons_of_mem _ hkv) a ha)]
      simp only [dictEvents, List.map_cons, List.flatten_cons]

theorem publish_outputs_for_key_cached_error (eid : Int) (key : String) :
    ∀ (l : List Artifact) (index : Int) (st : Store), (∃ a ∈ l, a.id = 0) →
      publish_outputs_for_key eid EXECUTION_STATE_CACHED key index l st =
        .error (.runtimeError "output artifact id not available for cached output", st)
  | [], _, _, hex => by
      obtain ⟨a, ha, -⟩ := hex
      exact absurd ha (List.not_mem_nil a)
  | a :: rest, index, st, hex => by
      rw [publish_outputs_for_key]
      by_cases ha : (a.id == 0) = true
      · rw [if_pos ha, if_pos (by rfl :
          (EXECUTION_STATE_CACHED == EXECUTION_STATE_CACHED) = true)]
      · rw [if_neg ha]
        have hex2 : ∃ a2 ∈ rest, a2.id = 0 := by
          obtain ⟨a2, hm, hz⟩ := hex
          rcases List.mem_cons.mp hm with h2 | h2
          · exfalso
            subst h2
            exact ha (beq_iff_eq.mpr hz)
          · exact ⟨a2, h2, hz⟩
        rw [publish_outputs_for_key_cached_error eid key rest (index + 1) st hex2]

theorem publish_outputs_cached_error (eid : Int) :
    ∀ (d : List (String × List Artifact)) (st : Store),
      (∃ kv ∈ d, ∃ a ∈ kv.2, a.id = 0) →
      publish_outputs eid EXECUTION_STATE_CACHED d st =
        .error (.runtimeError "output artifact id not available for cached output", st)
  | [], _, hex => by
      obtain ⟨kv, hm, -⟩ := hex
      exact absurd hm (List.not_mem_nil kv)
  | (key, l) :: rest, st, hex => by
      rw [publish_outputs]
      by_cases hl : ∃ a ∈ l, a.id = 0
      · rw [publish_outputs_for_key_cached_error eid key l 0 st hl]
      · have hall : ∀ a ∈ l, a.id ≠ 0 := by
          intro a ha
          exact fun hz => hl ⟨a, ha, hz⟩
        rw [publish_outputs_for_key_all_ids eid EXECUTION_STATE_CACHED key l 0 st hall]
        dsimp only
        have hex2 : ∃ kv ∈ rest, ∃ a ∈ kv.2, a.id = 0 := by
          obtain ⟨kv, hm, a, ham, hz⟩ := hex
          rcases List.mem_cons.mp hm with h2 | h2
          · exfalso
            subst h2
            exact hl ⟨a, ham, hz⟩
          · exact ⟨kv, h2, a, ham, hz⟩
        rw [publish_outputs_cached_error eid rest st hex2]


theorem put_artifact_type_spec (st : Store) (nm : String) :
    (put_artifact_type st nm).2.executions = st.executions ∧
    (put_artifact_type st nm).2.events = st.events ∧
    (put_artifact_type st nm).2.artifacts = st.artifacts ∧
    st.next_id ≤ (put_artifact_type st nm).2.next_id := by
  rw [put_artifact_type]
  cases st.artifact_types.lookup nm with
  | some tid => exact ⟨rfl, rfl, rfl, le_refl _⟩
  | none => exact ⟨rfl, rfl, rfl, by dsimp only; omega⟩

theorem prepare_artifact_type_id_spec (st : Store) (a : Artifact) :
    (prepare_artifact_type_id st a).2.executions = st.executions ∧
    (prepare_artifact_type_id st a).2.events = st.events ∧
    (prepare_artifact_type_id st a).2.artifacts = st.artifacts ∧
    st.next_id ≤ (prepare_artifact_type_id st a).2.next_id := by
  rw [prepare_artifact_type_id]
  by_cases h : (a.type_id != 0) = true
  · rw [if_pos h]
    exact ⟨rfl, rfl, rfl, le_refl _⟩
  · rw [if_neg h]
    exact put_artifact_type_spec st a.type_name

/-- The artifact record publish_artifacts stores for an id-less output. -/
def publishedArtifact (a : Artifact) (tid aid : Int) : Artifact :=
  { a with id := aid, type_id := tid, state := ARTIFACT_STATE_PUBLISHED }

theorem publish_outputs_for_key_complete (eid : Int) (key : String) :
    ∀ (l : List Artifact) (index : Int) (st : Store), 0 < st.next_id →
      ∃ l' st', publish_outputs_for_key eid EXECUTION_STATE_COMPLETE key index l st =
          .ok ((slotEvents eid key .OUTPUT index l', l'), st') ∧
        l'.length = l.length ∧
        0 < st'.next_id ∧
        st.next_id ≤ st'.next_id ∧
        st'.executions = st.executions ∧
        st'.events = st.events ∧
        (∃ tl, st'.artifacts = st.artifacts ++ tl ∧
          (∀ b ∈ tl, st.next_id ≤ b.id ∧ b.id < st'.next_id) ∧
          List.Pairwise (fun x y => x.id < y.id) tl ∧
          (∀ q ∈ l.zip l', (q.1.id ≠ 0 → q.2 = q.1) ∧ (q.1.id = 0 → q.2 ∈ tl))) ∧
        (∀ a2 ∈ l', a2.id ≠ 0)
  | [], index, st, hpos =>
      ⟨[], st, rfl, rfl, hpos, le_refl _, rfl, rfl,
        ⟨[], (List.append_nil _).symm, by simp, List.Pairwise.nil, by simp⟩,
        by simp⟩
  | a :: rest, index, st, hpos => by
      rw [publish_outputs_for_key]
      by_cases ha : (a.id == 0) = true
      · rw [if_pos ha,
          if_neg (by decide : ¬ (EXECUTION_STATE_COMPLETE == EXECUTION_STATE_CACHED) = true)]
        rcases hpt : prepare_artifact_type_id st a with ⟨tid, stT⟩
        have hTspec := prepare_artifact_type_id_spec st a
        rw [hpt] at hTspec
        dsimp only at hTspec
        obtain ⟨hTexe, hTeve, hTart, hTle⟩ := hTspec
        have hpub : publish_artifacts st [a] =
            ([publishedArtifact a tid stT.next_id],
             { stT with
               artifacts := stT.artifacts ++ [publishedArtifact a tid stT.next_id],
               next_id := stT.next_id + 1 }) := by
          rw [publish_artifacts, upsert_artifacts, resolve_types_and_state, hpt]
          dsimp only
          rw [resolve_types_and_state]
          dsimp only
          rw [put_artifacts]
          dsimp only
          rw [if_pos ha]
          dsimp only
          rw [put_artifacts]
          rfl
        rw [hpub]
        dsimp only
        obtain ⟨l', st', heq, hlen, hpos2, hle, hexe, heve, ⟨tl, hart, hbnd, hpw, hzip⟩, hnz⟩ :=
          publish_outputs_for_key_complete eid key rest (index + 1)
            { stT with
              artifacts := stT.artifacts ++ [publishedArtifact a tid stT.next_id],
              next_id := stT.next_id + 1 }
            (by dsimp only; omega)
        have hle2 : stT.next_id + 1 ≤ st'.next_id := hle
        rw [heq]
        dsimp only
        refine ⟨publishedArtifact a tid stT.next_id :: l', st', rfl,
          by simp [hlen], hpos2, by omega, hexe.trans hTexe, heve.trans hTeve,
          ⟨publishedArtifact a tid stT.next_id :: tl, ?_, ?_, ?_, ?_⟩, ?_⟩
        · rw [hart]
          dsimp only
          rw [hTart, List.append_assoc]
          rfl
        · intro b hm
          rcases List.mem_cons.mp hm with h2 | h2
          · subst h2
            refine ⟨?_, ?_⟩
            · show st.next_id ≤ stT.next_id
              omega
            · show stT.next_id < st'.next_id
              omega
          · have hb := hbnd b h2
            have hb1 : stT.next_id + 1 ≤ b.id := hb.1
            exact ⟨by omega, hb.2⟩
        · refine List.Pairwise.cons ?_ hpw
          intro b hm
          have hb1 : stT.next_id + 1 ≤ b.id := (hbnd b hm).1
          show stT.next_id < b.id
          omega
        · intro q hq
          rw [List.zip_cons_cons] at hq
          rcases List.mem_cons.mp hq with h2 | h2
          · subst h2
            exact ⟨fun hne => absurd (beq_iff_eq.mp ha) hne,
              fun _ => List.mem_cons_self _ _⟩
          · refine ⟨(hzip q h2).1, fun hz => List.mem_cons_of_mem _ ((hzip q h2).2 hz)⟩
        · intro a2 hm
          rcases List.mem_cons.mp hm with h2 | h2
          · subst h2
            show stT.next_id ≠ 0
            omega
          · exact hnz a2 h2
      · rw [if_neg ha]
        obtain ⟨l', st', heq, hlen, hpos2, hle, hexe, heve, ⟨tl, hart, hbnd, hpw, hzip⟩, hnz⟩ :=
          publish_outputs_for_key_complete eid key rest (index + 1) st hpos
        rw [heq]
        dsimp only
        refine ⟨a :: l', st', rfl, by simp [hlen], hpos2, hle, hexe, heve,
          ⟨tl, hart, hbnd, hpw, ?_⟩, ?_⟩
        · intro q hq
          rw [List.zip_cons_cons] at hq
          rcases List.mem_cons.mp hq with h2 | h2
          · subst h2
            refine ⟨fun _ => rfl, fun hz => absurd (beq_iff_eq.mpr hz) ha⟩
          · exact hzip q h2
        · intro a2 hm
          rcases List.mem_cons.mp hm with h2 | h2
          · subst h2
            exact beq_eq_false_iff_ne.mp (Bool.eq_false_iff.mpr ha)
          · exact hnz a2 h2

theorem publish_outputs_complete (eid : Int) :
    ∀ (d : List (String × List Artifact)) (st : Store), 0 < st.next_id →
      ∃ d' st', publish_outputs eid EXECUTION_STATE_COMPLETE d st =
          .ok ((dictEvents eid .OUTPUT d', d'), st') ∧
        d'.map (fun kv => (kv.1, kv.2.length)) = d.map (fun kv => (kv.1, kv.2.length)) ∧
        0 < st'.next_id ∧
        st.next_id ≤ st'.next_id ∧
        st'.executions = st.executions ∧
        st'.events = st.events ∧
        (∃ tl, st'.artifacts = st.artifacts ++ tl ∧
          (∀ b ∈ tl, st.next_id ≤ b.id ∧ b.id < st'.next_id) ∧
          List.Pairwise (fun x y => x.id < y.id) tl ∧
          (∀ p ∈ d.zip d', p.1.1 = p.2.1 ∧
            ∀ q ∈ p.1.2.zip p.2.2,
              (q.1.id ≠ 0 → q.2 = q.1) ∧ (q.1.id = 0 → q.2 ∈ tl))) ∧
        (∀ kv ∈ d', ∀ a2 ∈ kv.2, a2.id ≠ 0)
  | [], st, hpos =>
      ⟨[], st, rfl, rfl, hpos, le_refl _, rfl, rfl,
        ⟨[], (List.append_nil _).symm, by simp, List.Pairwise.nil, by simp⟩,
        by simp⟩
  | (key, l) :: rest, st, hpos => by
      rw [publish_outputs]
      obtain ⟨l', st2, heq, hlen, hpos2, hle2, hexe2, heve2, ⟨tl2, hart2, hbnd2, hpw2, hzip2⟩, hnz2⟩ :=
        publish_outputs_for_key_complete eid key l 0 st hpos
      rw [heq]
      dsimp only
      obtain ⟨rest', st', heqr, hshr, hposr, hler, hexer, hever, ⟨tlr, hartr, hbndr, hpwr, hzipr⟩, hnzr⟩ :=
        publish_outputs_complete eid rest st2 hpos2
      rw [heqr]
      dsimp only
      refine ⟨(key, l') :: rest', st', ?_, ?_, hposr, le_trans hle2 hler,
        hexer.trans hexe2, hever.trans heve2,
        ⟨tl2 ++ tlr, ?_, ?_, ?_, ?_⟩, ?_⟩
      · simp only [dictEvents, List.map_cons, List.flatten_cons]
      · rw [List.map_cons, List.map_cons, hshr, hlen]
      · rw [hartr, hart2, List.append_assoc]
      · intro b hm
        rcases List.mem_append.mp hm with h2 | h2
        · exact ⟨(hbnd2 b h2).1, lt_of_lt_of_le (hbnd2 b h2).2 hler⟩
        · exact ⟨le_trans hle2 (hbndr b h2).1, (hbndr b h2).2⟩
      · refine List.pairwise_append.mpr ⟨hpw2, hpwr, ?_⟩
        intro x hx y hy
        exact lt_of_lt_of_le (hbnd2 x hx).2 (hbndr y hy).1
      · intro p hp
        rw [List.zip_cons_cons] at hp
        rcases List.mem_cons.mp hp with h2 | h2
        · subst h2
          refine ⟨rfl, fun q hq => ⟨(hzip2 q hq).1, fun hz =>
            List.mem_append_left _ ((hzip2 q hq).2 hz)⟩⟩
        · refine ⟨(hzipr p h2).1, fun q hq => ⟨((hzipr p h2).2 q hq).1, fun hz =>
            List.mem_append_right _ (((hzipr p h2).2 q hq).2 hz)⟩⟩
      · intro kv hm a2 ha2
        rcases List.mem_cons.mp hm with h2 | h2
        · subst h2
          exact hnz2 a2 ha2
        · exact hnzr kv h2 a2 ha2

theorem mem_slotEvents (eid : Int) (key : String) (t : EventType) :
    ∀ (l : List Artifact) (index : Int) (i : Nat) (hi : i < l.length),
      prepare_event eid ((l.get ⟨i, hi⟩).id) key (index + (i : Int)) t ∈
        slotEvents eid key t index l
  | a :: rest, index, 0, _ => by
      rw [slotEvents]
      rw [show index + ((0 : Nat) : Int) = index by simp]
      exact List.mem_cons_self _ _
  | a :: rest, index, i + 1, hi => by
      rw [slotEvents]
      refine List.mem_cons_of_mem _ ?_
      have h2 := mem_slotEvents eid key t rest (index + 1) i
        (Nat.lt_of_succ_lt_succ hi)
      rw [show index + ((i + 1 : Nat) : Int) = (index + 1) + (i : Int) by push_cast; ring]
      exact h2

theorem mem_dictEvents (eid : Int) (t : EventType)
    {d : List (String × List Artifact)} {key : String} {l : List Artifact}
    (h : (key, l) ∈ d) (i : Nat) (hi : i < l.length) :
    prepare_event eid ((l.get ⟨i, hi⟩).id) key ((0 : Int) + (i : Int)) t ∈
      dictEvents eid t d := by
  rw [dictEvents]
  refine List.mem_flatten.mpr ⟨slotEvents eid key t 0 l, ?_, ?_⟩
  · exact List.mem_map.mpr ⟨(key, l), h, rfl⟩
  · exact mem_slotEvents eid key t l 0 i hi


theorem finalize_events (st2 : Store) (e0 : Execution) (state : String)
    (evs : List Event) :
    (if evs.isEmpty then update_execution_state st2 e0 state
     else put_events (update_execution_state st2 e0 state) evs).events =
      st2.events ++ evs ∧
    (if evs.isEmpty then update_execution_state st2 e0 state
     else put_events (update_execution_state st2 e0 state) evs).artifacts =
      st2.artifacts := by
  cases evs with
  | nil => exact ⟨(List.append_nil _).symm, rfl⟩
  | cons e rest => exact ⟨rfl, rfl⟩

/-- C3: publishing with state CACHED fails (with the store unchanged, so no
artifact is created) as soon as some output artifact lacks a persisted id;
publishing with state COMPLETE succeeds, publishing each id-less output
(which acquires a nonzero id and lands in the store) while outputs that
already had ids pass through unchanged, and every (key, index) output slot
gets an OUTPUT event carrying the slot's artifact id; a CACHED publish whose
outputs all have ids also succeeds with an OUTPUT event per slot. -/
theorem c3_publish_execution_output_identity :
    (∀ (st : Store) (eid : Int) (input_dict output_dict : List (String × List Artifact)),
      (∃ kv ∈ output_dict, ∃ a ∈ kv.2, a.id = 0) →
      ∃ e, publish_execution st eid input_dict output_dict EXECUTION_STATE_CACHED =
        .error (e, st)) ∧
    (∀ (st : Store) (eid : Int) (input_dict output_dict : List (String × List Artifact))
      (e0 : Execution),
      st.executions.filter (fun e2 => e2.id == eid) = [e0] →
      0 < st.next_id →
      (∀ kv ∈ input_dict, ∀ a ∈ kv.2, a.id ≠ 0) →
      ∃ out' st',
        publish_execution st eid input_dict output_dict EXECUTION_STATE_COMPLETE =
          .ok (out', st') ∧
        out'.map (fun kv => (kv.1, kv.2.length)) =
          output_dict.map (fun kv => (kv.1, kv.2.length)) ∧
        (∀ p ∈ output_dict.zip out', p.1.1 = p.2.1 ∧
          ∀ q ∈ p.1.2.zip p.2.2,
            (q.1.id ≠ 0 → q.2 = q.1) ∧
            (q.1.id = 0 → q.2.id ≠ 0 ∧ q.2 ∈ st'.artifacts)) ∧
        (∀ kv ∈ out', ∀ (i : Nat) (hi : i < kv.2.length),
          (kv.2.get ⟨i, hi⟩).id ≠ 0 ∧
          prepare_event eid ((kv.2.get ⟨i, hi⟩).id) kv.1 (i : Int) .OUTPUT ∈
            st'.events)) ∧
    (∀ (st : Store) (eid : Int) (input_dict output_dict : List (String × List Artifact))
      (e0 : Execution),
      st.executions.filter (fun e2 => e2.id == eid) = [e0] →
      (∀ kv ∈ input_dict, ∀ a ∈ kv.2, a.id ≠ 0) →
      (∀ kv ∈ output_dict, ∀ a ∈ kv.2, a.id ≠ 0) →
      ∃ st',
        publish_execution st eid input_dict output_dict EXECUTION_STATE_CACHED =
          .ok (output_dict, st') ∧
        st'.artifacts = st.artifacts ∧
        (∀ kv ∈ output_dict, ∀ (i : Nat) (hi : i < kv.2.length),
          prepare_event eid ((kv.2.get ⟨i, hi⟩).id) kv.1 (i : Int) .OUTPUT ∈
            st'.events)) := by
  refine ⟨?_, ?_, ?_⟩
  · intro st eid input_dict output_dict hbad
    rw [publish_execution, if_neg (by decide)]
    cases hci : collect_input_events eid input_dict with
    | error e => exact ⟨e, rfl⟩
    | ok evs =>
        dsimp only
        rw [publish_outputs_cached_error eid output_dict st hbad]
        exact ⟨_, rfl⟩
  · intro st eid input_dict output_dict e0 hfil hpos hin
    rw [publish_execution, if_neg (by decide)]
    rw [collect_input_events_ok eid input_dict hin]
    dsimp only
    obtain ⟨out', st2, heq, hsh, hpos2, hle2, hexe2, heve2, ⟨tl2, hart2, hbnd2, hpw2, hzip2⟩, hnz2⟩ :=
      publish_outputs_complete eid output_dict st hpos
    rw [heq]
    dsimp only
    have hge : get_executions_by_id st2 eid = [e0] := by
      rw [get_executions_by_id, hexe2]
      exact hfil
    rw [hge]
    dsimp only
    obtain ⟨hfe, hfa⟩ := finalize_events st2 e0 EXECUTION_STATE_COMPLETE
      (dictEvents eid .INPUT input_dict ++ dictEvents eid .OUTPUT out')
    refine ⟨out', _, rfl, hsh, ?_, ?_⟩
    · intro p hp
      refine ⟨(hzip2 p hp).1, fun q hq => ⟨((hzip2 p hp).2 q hq).1, fun hz => ?_⟩⟩
      have hm := ((hzip2 p hp).2 q hq).2 hz
      refine ⟨hnz2 p.2 (List.of_mem_zip hp).2 q.2 (List.of_mem_zip hq).2, ?_⟩
      rw [hfa, hart2]
      exact List.mem_append_right _ hm
    · intro kv hkv i hi
      refine ⟨hnz2 kv hkv _ (List.get_mem _ _ _), ?_⟩
      rw [hfe]
      refine List.mem_append_right _ (List.mem_append_right _ ?_)
      have hm := mem_dictEvents eid .OUTPUT hkv i hi
      rw [zero_add] at hm
      exact hm
  · intro st eid input_dict output_dict e0 hfil hin hout
    rw [publish_execution, if_neg (by decide)]
    rw [collect_input_events_ok eid input_dict hin]
    dsimp only
    rw [publish_outputs_all_ids eid EXECUTION_STATE_CACHED output_dict st hout]
    dsimp only
    have hge : get_executions_by_id st eid = [e0] := hfil
    rw [hge]
    dsimp only
    obtain ⟨hfe, hfa⟩ := finalize_events st e0 EXECUTION_STATE_CACHED
      (dictEvents eid .INPUT input_dict ++ dictEvents eid .OUTPUT output_dict)
    refine ⟨_, rfl, hfa, ?_⟩
    intro kv hkv i hi
    rw [hfe]
    refine List.mem_append_right _ (List.mem_append_right _ ?_)
    have hm := mem_dictEvents eid .OUTPUT hkv i hi
    rw [zero_add] at hm
    exact hm

/-- C3 witness: on a concrete store holding execution 10, a CACHED publish
with an id-less output fails leaving the store as it was, a COMPLETE publish
of the same output succeeds, and a CACHED publish of an already-persisted
output succeeds. -/
theorem c3_witness :
    (∃ e, publish_execution stF 10 []
        [("o", [Artifact.mk 0 4 "Model" ""])] EXECUTION_STATE_CACHED =
      .error (e, stF)) ∧
    (∃ out' st',
      publish_execution stF 10 []
          [("o", [Artifact.mk 0 4 "Model" ""])] EXECUTION_STATE_COMPLETE =
        .ok (out', st') ∧
      out'.map (fun kv => (kv.1, kv.2.length)) =
        [("o", [Artifact.mk 0 4 "Model" ""])].map (fun kv => (kv.1, kv.2.length)) ∧
      (∀ p ∈ ([("o", [Artifact.mk 0 4 "Model" ""])] :
          List (String × List Artifact)).zip out', p.1.1 = p.2.1 ∧
        ∀ q ∈ p.1.2.zip p.2.2,
          (q.1.id ≠ 0 → q.2 = q.1) ∧
          (q.1.id = 0 → q.2.id ≠ 0 ∧ q.2 ∈ st'.artifacts)) ∧
      (∀ kv ∈ out', ∀ (i : Nat) (hi : i < kv.2.length),
        (kv.2.get ⟨i, hi⟩).id ≠ 0 ∧
        prepare_event 10 ((kv.2.get ⟨i, hi⟩).id) kv.1 (i : Int) .OUTPUT ∈
          st'.events)) ∧
    (∃ st',
      publish_execution stF 10 []
          [("m", [Artifact.mk 5 4 "Model" "published"])] EXECUTION_STATE_CACHED =
        .ok ([("m", [Artifact.mk 5 4 "Model" "published"])], st') ∧
      st'.artifacts = stF.artifacts ∧
      (∀ kv ∈ ([("m", [Artifact.mk 5 4 "Model" "published"])] :
          List (String × List Artifact)), ∀ (i : Nat) (hi : i < kv.2.length),
        prepare_event 10 ((kv.2.get ⟨i, hi⟩).id) kv.1 (i : Int) .OUTPUT ∈
          st'.events)) :=
  ⟨c3_publish_execution_output_identity.1 stF 10 [] _
      ⟨("o", [Artifact.mk 0 4 "Model" ""]), List.mem_cons_self _ _,
        Artifact.mk 0 4 "Model" "", List.mem_cons_self _ _, rfl⟩,
    c3_publish_execution_output_identity.2.1 stF 10 [] _
      (Execution.mk 10 1 [("state", "complete")]) rfl (by decide)
      (fun kv h => absurd h (List.not_mem_nil kv)),
    c3_publish_execution_output_identity.2.2 stF 10 [] _
      (Execution.mk 10 1 [("state", "complete")]) rfl
      (fun kv h => absurd h (List.not_mem_nil kv))
      (by
        intro kv h a ha
        rcases List.mem_cons.mp h with h2 | h2
        · subst h2
          rcases List.mem_cons.mp ha with h3 | h3
          · subst h3
            decide
          · exact absurd h3 (List.not_mem_nil a)
        · exact absurd h2 (List.not_mem_nil kv))⟩


/-! ## Lemmas: the register → publish → fetch round trip -/

theorem setEntry_fresh {κ β : Type} [DecidableEq κ]
    (d : List (κ × β)) (k : κ) (v : β) (h : ∀ q ∈ d, q.1 ≠ k) :
    setEntry d k v = (k, v) :: d := by
  rw [setEntry, List.filter_eq_self.mpr]
  intro q hq
  simpa using h q hq

theorem put_execution_type_spec (st : Store) (t : ExecutionType) (tid : Int)
    (st1 : Store) (h : put_execution_type st t = .ok (tid, st1)) :
    st1.executions = st.executions ∧ st1.events = st.events ∧
    st1.artifacts = st.artifacts ∧ st.next_id ≤ st1.next_id := by
  rw [put_execution_type] at h
  cases hf : st.execution_types.find? (fun e => e.name == t.name) with
  | none =>
      rw [hf] at h
      dsimp only at h
      cases h
      exact ⟨rfl, rfl, rfl, by dsimp only; omega⟩
  | some e =>
      rw [hf] at h
      dsimp only at h
      by_cases hc : (e.properties.all fun kv => t.properties.lookup kv.1 == some kv.2) = true
      · rw [if_pos hc] at h
        cases h
        exact ⟨rfl, rfl, rfl, le_refl _⟩
      · rw [if_neg hc] at h
        cases h

theorem register_new_execution_type_spec (st : Store) (nm : String) (ep : Props)
    (tid : Int) (st1 : Store)
    (h : register_new_execution_type st nm ep = .ok (tid, st1)) :
    st1.executions = st.executions ∧ st1.events = st.events ∧
    st1.artifacts = st.artifacts ∧ st.next_id ≤ st1.next_id := by
  rw [register_new_execution_type] at h
  cases hf : ep.find? (fun kv => EXECUTION_TYPE_RESERVED_KEYS.contains kv.1) with
  | some kv =>
      rw [hf] at h
      cases h
  | none =>
      rw [hf] at h
      dsimp only at h
      cases hp : put_execution_type st (builtExecutionType nm ep) with
      | ok p =>
          obtain ⟨a, b⟩ := p
          rw [hp] at h
          dsimp only at h
          cases h
          exact put_execution_type_spec st _ _ _ hp
      | error e =>
          obtain ⟨e1, st2⟩ := e
          rw [hp] at h
          dsimp only at h
          cases hg : get_execution_type st nm with
          | some ex =>
              rw [hg] at h
              cases h
          | none =>
              rw [hg] at h
              cases h

theorem prepare_execution_type_spec (st : Store) (nm : String) (ep : Props)
    (tid : Int) (st1 : Store)
    (h : prepare_execution_type st nm ep = .ok (tid, st1)) :
    st1.executions = st.executions ∧ st1.events = st.events ∧
    st1.artifacts = st.artifacts ∧ st.next_id ≤ st1.next_id := by
  rw [prepare_execution_type] at h
  cases hg : get_execution_type st nm with
  | none =>
      rw [hg] at h
      exact register_new_execution_type_spec st nm ep tid st1 h
  | some existing =>
      rw [hg] at h
      dsimp only at h
      by_cases hc : (ep.all fun kv => (existing.properties.lookup kv.1).isSome) = true
      · rw [if_pos hc] at h
        cases h
        exact ⟨rfl, rfl, rfl, le_refl _⟩
      · rw [if_neg hc] at h
        exact register_new_execution_type_spec st nm ep tid st1 h

theorem prepare_execution_spec (env : Env) (st : Store) (state : String)
    (ep : Props) (pi : PipelineInfo) (ci : ComponentInfo) (ex : Execution)
    (st1 : Store) (h : prepare_execution env st state ep pi ci = .ok (ex, st1)) :
    st1.executions = st.executions ∧ st1.events = st.events ∧
    st1.artifacts = st.artifacts ∧ st.next_id ≤ st1.next_id := by
  rw [prepare_execution] at h
  cases hp : prepare_execution_type st ci.component_type ep with
  | error e =>
      rw [hp] at h
      cases h
  | ok p =>
      obtain ⟨tid, stT⟩ := p
      rw [hp] at h
      dsimp only at h
      cases h
      exact prepare_execution_type_spec st _ _ _ _ hp

/-- Inversion of a successful register_execution: the fresh id is the
counter value after type preparation, and the store gains exactly the new
execution (plus attributions). -/
theorem register_execution_ok (env : Env) (st : Store) (ep : Props)
    (pi : PipelineInfo) (ci : ComponentInfo) (ctxs : List Context)
    (eid : Int) (st2 : Store)
    (h : register_execution env st ep pi ci ctxs = .ok (eid, st2)) :
    ∃ ex st1, prepare_execution env st EXECUTION_STATE_NEW ep pi ci = .ok (ex, st1) ∧
      eid = st1.next_id ∧
      st2.executions = st1.executions ++ [{ ex with id := eid }] ∧
      st2.events = st1.events ∧
      st2.artifacts = st1.artifacts ∧
      st2.next_id = st1.next_id + 1 := by
  rw [register_execution] at h
  cases hp : prepare_execution env st EXECUTION_STATE_NEW ep pi ci with
  | error e =>
      rw [hp] at h
      cases h
  | ok p =>
      obtain ⟨ex, st1⟩ := p
      rw [hp] at h
      dsimp only [put_execution] at h
      cases h
      exact ⟨ex, st1, rfl, rfl, rfl, rfl, rfl, rfl⟩


theorem slotEvents_mem_spec (eid : Int) (key : String) (t : EventType) :
    ∀ (l : List Artifact) (index : Int) (ev : Event),
      ev ∈ slotEvents eid key t index l →
      ev.execution_id = eid ∧ ev.type = t ∧ ev.key = key
  | [], _, ev, h => absurd h (List.not_mem_nil ev)
  | a :: rest, index, ev, h => by
      rw [slotEvents] at h
      rcases List.mem_cons.mp h with h2 | h2
      · subst h2
        exact ⟨rfl, rfl, rfl⟩
      · exact slotEvents_mem_spec eid key t rest (index + 1) ev h2

theorem dictEvents_mem_spec (eid : Int) (t : EventType)
    (d : List (String × List Artifact)) (ev : Event)
    (h : ev ∈ dictEvents eid t d) : ev.execution_id = eid ∧ ev.type = t := by
  rw [dictEvents] at h
  obtain ⟨block, hb, hev⟩ := List.mem_flatten.mp h
  obtain ⟨kv, hkv, hbe⟩ := List.mem_map.mp hb
  rw [← hbe] at hev
  obtain ⟨h1, h2, h3⟩ := slotEvents_mem_spec eid kv.1 t kv.2 0 ev hev
  exact ⟨h1, h2⟩

theorem group_output_artifacts_append (st : Store) :
    ∀ (evs1 evs2 : List Event) (acc mid : List (String × List (Int × Artifact))),
      group_output_artifacts st evs1 acc = .ok mid →
      group_output_artifacts st (evs1 ++ evs2) acc =
        group_output_artifacts st evs2 mid
  | [], evs2, acc, mid, h => by
      rw [group_output_artifacts] at h
      cases h
      rw [List.nil_append]
  | ev :: rest, evs2, acc, mid, h => by
      rw [group_output_artifacts] at h
      rw [List.cons_append, group_output_artifacts]
      by_cases hty : (ev.type == EventType.OUTPUT) = true
      · rw [if_pos hty] at h ⊢
        cases hga : get_artifacts_by_id st ev.artifact_id with
        | nil =>
            rw [hga] at h
            cases h
        | cons a tail =>
            cases tail with
            | cons b tail2 =>
                rw [hga] at h
                cases h
            | nil =>
                rw [hga] at h
                dsimp only at h ⊢
                exact group_output_artifacts_append st rest evs2 _ mid h
      · rw [if_neg hty] at h ⊢
        exact group_output_artifacts_append st rest evs2 acc mid h

theorem group_skip_non_output (st : Store) :
    ∀ (evs : List Event) (acc : List (String × List (Int × Artifact))),
      (∀ ev ∈ evs, ev.type ≠ EventType.OUTPUT) →
      group_output_artifacts st evs acc = .ok acc
  | [], acc, _ => rfl
  | ev :: rest, acc, h => by
      rw [group_output_artifacts]
      have hne : (ev.type == EventType.OUTPUT) = false :=
        beq_eq_false_iff_ne.mpr (h ev (List.mem_cons_self _ _))
      rw [if_neg (by simp [hne])]
      exact group_skip_non_output st rest acc
        (fun e he => h e (List.mem_cons_of_mem _ he))


theorem group_slot (st : Store) (eid : Int) (key : String) :
    ∀ (l : List Artifact) (index : Int)
      (acc : List (String × List (Int × Artifact))),
      (∀ a ∈ l, ∃ b, get_artifacts_by_id st a.id = [b]) →
      (∀ q ∈ (List.lookup key acc).getD [], q.1 < index) →
      ∃ acc2, group_output_artifacts st (slotEvents eid key .OUTPUT index l) acc =
          .ok acc2 ∧
        (∀ name, name ≠ key → acc2.lookup name = acc.lookup name) ∧
        (l = [] → acc2 = acc) ∧
        (l ≠ [] → ∃ inner, List.lookup key acc2 = some inner ∧
          inner.length = ((List.lookup key acc).getD []).length + l.length ∧
          (∀ q ∈ inner, q.1 < index + (l.length : Int))) ∧
        (∀ i : Nat, ∀ hi : i < l.length,
          ∃ b, ((List.lookup key acc2).getD []).lookup (index + (i : Int)) = some b ∧
            get_artifacts_by_id st ((l.get ⟨i, hi⟩).id) = [b]) ∧
        (∀ j : Int, (∀ i : Nat, i < l.length → j ≠ index + (i : Int)) →
          ((List.lookup key acc2).getD []).lookup j =
            ((List.lookup key acc).getD []).lookup j)
  | [], index, acc, _, _ =>
      ⟨acc, rfl, fun _ _ => rfl, fun _ => rfl,
        fun hne => absurd rfl hne,
        fun i hi => absurd hi (Nat.not_lt_zero i),
        fun _ _ => rfl⟩
  | a :: rest, index, acc, harts, hbelow => by
      obtain ⟨b, hb⟩ := harts a (List.mem_cons_self _ _)
      rw [slotEvents, group_output_artifacts]
      dsimp only [prepare_event]
      rw [if_pos (by decide : (EventType.OUTPUT == EventType.OUTPUT) = true)]
      rw [hb]
      dsimp only
      have hfresh : ∀ q ∈ (List.lookup key acc).getD [], q.1 ≠ index :=
        fun q hq => ne_of_lt (hbelow q hq)
      have hse : setEntry ((List.lookup key acc).getD []) index b =
          (index, b) :: (List.lookup key acc).getD [] :=
        setEntry_fresh _ _ _ hfresh
      have hsetlk :
          (List.lookup key (setEntry acc key
            (setEntry ((List.lookup key acc).getD []) index b))).getD [] =
            setEntry ((List.lookup key acc).getD []) index b := by
        rw [lookup_setEntry_self]
        rfl
      obtain ⟨acc2, heq, hother, hnil2, hsome, hidx, hj⟩ :=
        group_slot st eid key rest (index + 1)
          (setEntry acc key (setEntry ((List.lookup key acc).getD []) index b))
          (fun a2 h2 => harts a2 (List.mem_cons_of_mem _ h2))
          (by
            rw [hsetlk, hse]
            intro q hq
            rcases List.mem_cons.mp hq with h2 | h2
            · have hq1 : q.1 = index := by rw [h2]
              omega
            · have := hbelow q h2
              omega)
      refine ⟨acc2, heq, ?_, fun h => absurd h (List.cons_ne_nil a rest), ?_, ?_, ?_⟩
      · intro name hne
        rw [hother name hne, lookup_setEntry_ne _ _ hne]
      · intro _
        by_cases hrest : rest = []
        · subst hrest
          rw [hnil2 rfl]
          refine ⟨setEntry ((List.lookup key acc).getD []) index b,
            lookup_setEntry_self _ _ _, ?_, ?_⟩
          · rw [hse]
            simp
          · rw [hse]
            intro q hq
            rcases List.mem_cons.mp hq with h2 | h2
            · have hq1 : q.1 = index := by rw [h2]
              simp only [List.length_cons, List.length_nil]
              push_cast
              omega
            · have := hbelow q h2
              simp only [List.length_cons, List.length_nil]
              push_cast
              omega
        · obtain ⟨inner, hlk, hlen, hbound⟩ := hsome hrest
          refine ⟨inner, hlk, ?_, ?_⟩
          · rw [hlen, hsetlk, hse]
            simp only [List.length_cons]
            omega
          · intro q hq
            have := hbound q hq
            simp only [List.length_cons] at this ⊢
            push_cast at this ⊢
            omega
      · intro i hi
        cases i with
        | zero =>
            have hj0 := hj index (by
              intro i2 hi2
              omega)
            rw [show index + ((0 : Nat) : Int) = index by simp, hj0, hsetlk, hse,
              lookup_cons_self]
            exact ⟨b, rfl, hb⟩
        | succ i2 =>
            have hidx2 := hidx i2 (Nat.lt_of_succ_lt_succ hi)
            rw [show index + ((i2 + 1 : Nat) : Int) = (index + 1) + (i2 : Int) by
              push_cast; ring]
            exact hidx2
      · intro j hjp
        have hj2 := hj j (by
          intro i2 hi2
          have := hjp (i2 + 1) (Nat.succ_lt_succ hi2)
          push_cast at this ⊢
          omega)
        have hjne : j ≠ index := by
          have := hjp 0 (Nat.succ_pos _)
          simpa using this
        rw [hj2, hsetlk, hse, lookup_cons_ne _ _ hjne]

theorem group_dict (st : Store) (eid : Int) :
    ∀ (d : List (String × List Artifact))
      (acc : List (String × List (Int × Artifact))),
      (∀ kv ∈ d, ∀ a ∈ kv.2, ∃ b, get_artifacts_by_id st a.id = [b]) →
      (d.map Prod.fst).Nodup →
      (∀ kv ∈ d, List.lookup kv.1 acc = none) →
      ∃ g, group_output_artifacts st (dictEvents eid .OUTPUT d) acc = .ok g ∧
        (∀ name, name ∉ d.map Prod.fst → g.lookup name = acc.lookup name) ∧
        (∀ name l', (name, l') ∈ d → l' ≠ [] →
          ∃ inner, List.lookup name g = some inner ∧ inner.length = l'.length ∧
            (∀ i : Nat, ∀ hi : i < l'.length,
              ∃ b, inner.lookup ((0 : Int) + (i : Int)) = some b ∧
                get_artifacts_by_id st ((l'.get ⟨i, hi⟩).id) = [b]))
  | [], acc, _, _, _ =>
      ⟨acc, rfl, fun _ _ => rfl, fun name l' h => absurd h (List.not_mem_nil _)⟩
  | (key, l) :: rest, acc, harts, hnd, hnone => by
      rw [List.map_cons, List.nodup_cons] at hnd
      obtain ⟨acc1, heq1, hother1, hnil1, hsome1, hidx1, hj1⟩ :=
        group_slot st eid key l 0 acc
          (fun a2 h2 => harts (key, l) (List.mem_cons_self _ _) a2 h2)
          (by
            rw [hnone (key, l) (List.mem_cons_self _ _)]
            intro q hq
            exact absurd hq (List.not_mem_nil q))
      obtain ⟨g, heq2, hother2, hinner2⟩ :=
        group_dict st eid rest acc1
          (fun kv h2 => harts kv (List.mem_cons_of_mem _ h2))
          hnd.2
          (fun kv h2 => by
            rw [hother1 kv.1 (fun he => hnd.1 (he ▸ List.mem_map.mpr ⟨kv, h2, rfl⟩))]
            exact hnone kv (List.mem_cons_of_mem _ h2))
      refine ⟨g, ?_, ?_, ?_⟩
      · have happ := group_output_artifacts_append st
          (slotEvents eid key .OUTPUT 0 l) (dictEvents eid .OUTPUT rest) acc acc1 heq1
        rw [dictEvents, List.map_cons, List.flatten_cons]
        rw [show (List.map (fun kv => slotEvents eid kv.1 EventType.OUTPUT 0 kv.2)
          rest).flatten = dictEvents eid .OUTPUT rest from rfl]
        rw [happ]
        exact heq2
      · intro name hnm
        rw [List.map_cons, List.mem_cons] at hnm
        push_neg at hnm
        rw [hother2 name hnm.2, hother1 name hnm.1]
      · intro name l' hmem hne
        rcases List.mem_cons.mp hmem with h2 | h2
        · have hname : name = key := congrArg Prod.fst h2
          have hl : l' = l := congrArg Prod.snd h2
          rw [hname, hl]
          have hgk : g.lookup key = acc1.lookup key := hother2 key hnd.1
          obtain ⟨inner, hlk, hlen, hbound⟩ := hsome1 (hl ▸ hne)
          refine ⟨inner, by rw [hgk]; exact hlk, ?_, ?_⟩
          · rw [hlen, hnone (key, l) (List.mem_cons_self _ _)]
            simp
          · intro i hi
            have hcur := hidx1 i hi
            rw [hlk] at hcur
            simpa using hcur
        · exact hinner2 name l' h2 hne


theorem filter_id_unique :
    ∀ (l : List Artifact), (l.map Artifact.id).Nodup →
      ∀ a ∈ l, l.filter (fun b => b.id == a.id) = [a]
  | [], _, a, ha => absurd ha (List.not_mem_nil a)
  | c :: rest, hnd, a, ha => by
      rw [List.map_cons, List.nodup_cons] at hnd
      rcases List.mem_cons.mp ha with h2 | h2
      · subst h2
        have hrest : rest.filter (fun b => b.id == a.id) = [] := by
          rw [List.filter_eq_nil_iff]
          intro b hbm
          simp only [beq_iff_eq]
          intro he
          exact hnd.1 (he ▸ List.mem_map.mpr ⟨b, hbm, rfl⟩)
        simp [List.filter_cons, hrest]
      · have hcne : (c.id == a.id) = false := by
          refine beq_eq_false_iff_ne.mpr ?_
          intro he
          exact hnd.1 (he ▸ List.mem_map.mpr ⟨a, h2, rfl⟩)
        simp only [List.filter_cons, hcne]
        simp only [Bool.false_eq_true, if_false]
        exact filter_id_unique rest hnd.2 a h2

theorem attach_indices_spec (inner : List (Int × Artifact)) :
    ∀ (l ref : List Artifact) (index : Int),
      l.length = ref.length →
      (∀ i : Nat, ∀ hi : i < ref.length,
        ∃ b, inner.lookup (index + (i : Int)) = some b ∧
          b.id = (ref.get ⟨i, hi⟩).id) →
      ∃ l2, attach_indices inner index l = some l2 ∧
        l2.map Artifact.id = ref.map Artifact.id
  | [], ref, index, hlen, _ => by
      rw [(List.length_eq_zero.mp hlen.symm : ref = [])]
      exact ⟨[], rfl, rfl⟩
  | a :: l1, ref, index, hlen, hidx => by
      cases ref with
      | nil => cases hlen
      | cons r ref1 =>
          obtain ⟨b, hb, hbid⟩ := hidx 0 (Nat.succ_pos _)
          rw [attach_indices]
          rw [show index + ((0 : Nat) : Int) = index from by simp] at hb
          rw [hb]
          dsimp only
          obtain ⟨l2, h2, hmap⟩ := attach_indices_spec inner l1 ref1 (index + 1)
            (by
              simp only [List.length_cons] at hlen
              omega)
            (fun i hi => by
              have hcur := hidx (i + 1) (Nat.succ_lt_succ hi)
              rw [show index + ((i + 1 : Nat) : Int) = (index + 1) + (i : Int) from by
                push_cast; ring] at hcur
              exact hcur)
          rw [h2]
          dsimp only
          refine ⟨b :: l2, rfl, ?_⟩
          rw [List.map_cons, List.map_cons, hmap, hbid]
          rfl

theorem attach_outputs_spec (stP : Store)
    (g : List (String × List (Int × Artifact))) :
    ∀ (shape ref : List (String × List Artifact)),
      shape.length = ref.length →
      (∀ p ∈ shape.zip ref, p.1.1 = p.2.1 ∧ p.1.2.length = p.2.2.length ∧
        ∃ inner, List.lookup p.1.1 g = some inner ∧
          inner.length = p.1.2.length ∧
          (∀ i : Nat, ∀ hi : i < p.2.2.length,
            ∃ b, inner.lookup ((0 : Int) + (i : Int)) = some b ∧
              b.id = (p.2.2.get ⟨i, hi⟩).id)) →
      ∃ res, attach_outputs stP g shape = .ok res ∧
        res.map (fun kv => (kv.1, kv.2.map Artifact.id)) =
          ref.map (fun kv => (kv.1, kv.2.map Artifact.id))
  | [], ref, hlen, _ => by
      rw [(List.length_eq_zero.mp hlen.symm : ref = [])]
      exact ⟨[], rfl, rfl⟩
  | (name, ol) :: shape1, ref, hlen, hfacts => by
      cases ref with
      | nil => cases hlen
      | cons rkv ref1 =>
          obtain ⟨rname, rl⟩ := rkv
          obtain ⟨hname, hollen, inner, hlkp, hilen, hidx⟩ :=
            hfacts ((name, ol), (rname, rl)) (by
              rw [List.zip_cons_cons]
              exact List.mem_cons_self _ _)
          rw [attach_outputs, hlkp]
          dsimp only
          rw [hilen]
          rw [if_neg (by simp)]
          obtain ⟨l2, hatt, hmap⟩ := attach_indices_spec inner ol rl 0
            hollen hidx
          rw [hatt]
          dsimp only
          obtain ⟨res1, hres1, hresmap⟩ := attach_outputs_spec stP g shape1 ref1
            (by
              simp only [List.length_cons] at hlen
              omega)
            (fun p hp => hfacts p (by
              rw [List.zip_cons_cons]
              exact List.mem_cons_of_mem _ hp))
          rw [hres1]
          dsimp only
          refine ⟨(name, l2) :: res1, rfl, ?_⟩
          rw [List.map_cons, List.map_cons, hresmap, hmap, hname]

/-- Store sanity: the id counter is positive and strictly above every stored
id (MLMD assigns increasing primary keys). -/
def StoreWF (st : Store) : Prop :=
  0 < st.next_id ∧
  (∀ e ∈ st.executions, e.id < st.next_id) ∧
  (∀ ev ∈ st.events, ev.execution_id < st.next_id) ∧
  (∀ a ∈ st.artifacts, a.id < st.next_id)

instance (st : Store) : Decidable (StoreWF st) := by
  unfold StoreWF
  infer_instance


theorem zip_pair_of_mem {α β : Type} :
    ∀ (l1 : List α) (l2 : List β), l1.length = l2.length →
      ∀ b ∈ l2, ∃ a, (a, b) ∈ l1.zip l2
  | _, [], _, b, hb => absurd hb (List.not_mem_nil b)
  | [], b0 :: rest, hlen, _, _ => by cases hlen
  | a0 :: rest1, b0 :: rest, hlen, b, hb => by
      rcases List.mem_cons.mp hb with h2 | h2
      · subst h2
        exact ⟨a0, by
          rw [List.zip_cons_cons]
          exact List.mem_cons_self _ _⟩
      · obtain ⟨a, ha⟩ := zip_pair_of_mem rest1 rest
          (by
            simp only [List.length_cons] at hlen
            omega) b h2
        exact ⟨a, by
          rw [List.zip_cons_cons]
          exact List.mem_cons_of_mem _ ha⟩

theorem zip_len_of_map_eq :
    ∀ (d d' : List (String × List Artifact)),
      d'.map (fun kv => (kv.1, kv.2.length)) = d.map (fun kv => (kv.1, kv.2.length)) →
      ∀ p ∈ d.zip d', p.1.1 = p.2.1 ∧ p.1.2.length = p.2.2.length
  | [], _, _, p, hp => absurd hp (by simp)
  | _ :: _, [], _, p, hp => absurd hp (by simp)
  | kv1 :: rest1, kv2 :: rest2, hmap, p, hp => by
      rw [List.map_cons, List.map_cons] at hmap
      have hhead : (kv2.1, kv2.2.length) = (kv1.1, kv1.2.length) :=
        (List.cons.injEq _ _ _ _ ▸ hmap).1
      have htail := (List.cons.injEq _ _ _ _ ▸ hmap).2
      rw [List.zip_cons_cons] at hp
      rcases List.mem_cons.mp hp with h2 | h2
      · have h11 : p.1.1 = kv1.1 := by rw [h2]
        have h21 : p.2.1 = kv2.1 := by rw [h2]
        have h12 : p.1.2 = kv1.2 := by rw [h2]
        have h22 : p.2.2 = kv2.2 := by rw [h2]
        have hh1 : kv2.1 = kv1.1 := by
          have := congrArg Prod.fst hhead
          simpa using this
        have hh2 : kv2.2.length = kv1.2.length := by
          have := congrArg Prod.snd hhead
          simpa using this
        refine ⟨?_, ?_⟩
        · rw [h11, h21, hh1]
        · rw [h12, h22, hh2]
      · exact zip_len_of_map_eq rest1 rest2 htail p h2

theorem mem_filter_singleton_id {l : List Artifact} {x : Int} {b : Artifact}
    (h : l.filter (fun c => c.id == x) = [b]) : b ∈ l ∧ b.id = x := by
  have hb : b ∈ l.filter (fun c => c.id == x) := by
    rw [h]
    exact List.mem_cons_self _ _
  obtain ⟨h1, h2⟩ := List.mem_filter.mp hb
  exact ⟨h1, beq_iff_eq.mp h2⟩


theorem map_fst_of_map_eq :
    ∀ (d d' : List (String × List Artifact)),
      d'.map (fun kv => (kv.1, kv.2.length)) = d.map (fun kv => (kv.1, kv.2.length)) →
      d'.map Prod.fst = d.map Prod.fst
  | [], [], _ => rfl
  | [], _ :: _, h => by cases h
  | _ :: _, [], h => by cases h
  | kv1 :: rest1, kv2 :: rest2, h => by
      rw [List.map_cons, List.map_cons, List.cons.injEq] at h
      have h1 : kv2.1 = kv1.1 := by
        have := congrArg Prod.fst h.1
        simpa using this
      rw [List.map_cons, List.map_cons, map_fst_of_map_eq rest1 rest2 h.2, h1]

/-- After a COMPLETE publish, fetching against the same output shape
returns, name by name and index by index, artifacts carrying exactly the
published ids. Stated against any store whose events and artifacts decompose
as the publish path leaves them. -/
theorem fetch_after_publish (stP : Store) (eid : Int)
    (input_dict O out' : List (String × List Artifact)) (tl : List Artifact)
    (st0 : Store) (nid : Int)
    (hev : stP.events = st0.events ++
      (dictEvents eid .INPUT input_dict ++ dictEvents eid .OUTPUT out'))
    (hart : stP.artifacts = st0.artifacts ++ tl)
    (hstev : ∀ ev ∈ st0.events, ev.execution_id ≠ eid)
    (hstart : ∀ b ∈ st0.artifacts, b.id < nid)
    (htl : ∀ b ∈ tl, nid ≤ b.id)
    (htlnd : (tl.map Artifact.id).Nodup)
    (hsh : out'.map (fun kv => (kv.1, kv.2.length)) =
      O.map (fun kv => (kv.1, kv.2.length)))
    (hkeys : (O.map Prod.fst).Nodup)
    (hnonempty : ∀ kv ∈ O, kv.2 ≠ [])
    (hzip : ∀ p ∈ O.zip out', p.1.1 = p.2.1 ∧ ∀ q ∈ p.1.2.zip p.2.2,
      (q.1.id ≠ 0 → q.2 = q.1) ∧ (q.1.id = 0 → q.2 ∈ tl))
    (hpres : ∀ kv ∈ O, ∀ a ∈ kv.2, a.id ≠ 0 →
      ∃ b, get_artifacts_by_id st0 a.id = [b]) :
    ∃ res, fetch_previous_result_artifacts stP O eid = .ok (res, stP) ∧
      res.map (fun kv => (kv.1, kv.2.map Artifact.id)) =
        out'.map (fun kv => (kv.1, kv.2.map Artifact.id)) := by
  have hOlen : O.length = out'.length := by
    have := congrArg List.length hsh
    simp only [List.length_map] at this
    omega
  have hevents : get_events_by_execution_ids stP eid =
      dictEvents eid .INPUT input_dict ++ dictEvents eid .OUTPUT out' := by
    rw [get_events_by_execution_ids, hev, List.filter_append]
    have hnil : st0.events.filter (fun ev => ev.execution_id == eid) = [] := by
      rw [List.filter_eq_nil_iff]
      intro ev hevm
      simp only [beq_iff_eq]
      exact hstev ev hevm
    have hall : (dictEvents eid .INPUT input_dict ++
        dictEvents eid .OUTPUT out').filter
          (fun ev => ev.execution_id == eid) =
        dictEvents eid .INPUT input_dict ++ dictEvents eid .OUTPUT out' := by
      rw [List.filter_eq_self]
      intro ev hevm
      rcases List.mem_append.mp hevm with h2 | h2
      · simp [(dictEvents_mem_spec eid .INPUT input_dict ev h2).1]
      · simp [(dictEvents_mem_spec eid .OUTPUT out' ev h2).1]
    rw [hnil, hall, List.nil_append]
  have hskip : group_output_artifacts stP
      (dictEvents eid .INPUT input_dict) [] = .ok [] :=
    group_skip_non_output stP _ []
      (fun ev hevm => by
        rw [(dictEvents_mem_spec eid .INPUT input_dict ev hevm).2]
        decide)
  have harts : ∀ kv ∈ out', ∀ a2 ∈ kv.2,
      ∃ b, get_artifacts_by_id stP a2.id = [b] := by
    intro kv hkv a2 ha2
    obtain ⟨kvO, hkvO⟩ := zip_pair_of_mem O out' hOlen kv hkv
    have hplen := zip_len_of_map_eq O out' hsh (kvO, kv) hkvO
    obtain ⟨aO, haO⟩ := zip_pair_of_mem kvO.2 kv.2 hplen.2 a2 ha2
    have hzp := (hzip (kvO, kv) hkvO).2 (aO, a2) haO
    by_cases h0 : aO.id = 0
    · have hmemtl : a2 ∈ tl := hzp.2 h0
      have htlf : tl.filter (fun c => c.id == a2.id) = [a2] :=
        filter_id_unique tl htlnd a2 hmemtl
      have hstf : st0.artifacts.filter (fun c => c.id == a2.id) = [] := by
        rw [List.filter_eq_nil_iff]
        intro c hc
        have h1 := hstart c hc
        have h2 := htl a2 hmemtl
        simp only [beq_iff_eq]
        omega
      refine ⟨a2, ?_⟩
      rw [get_artifacts_by_id, hart, List.filter_append, hstf, htlf,
        List.nil_append]
    · have ha2eq : a2 = aO := hzp.1 h0
      obtain ⟨b, hfb⟩ := hpres kvO (List.of_mem_zip hkvO).1 aO
        (List.of_mem_zip haO).1 h0
      rw [get_artifacts_by_id] at hfb
      obtain ⟨hbmem, hbid⟩ := mem_filter_singleton_id hfb
      have htlf : tl.filter (fun c => c.id == aO.id) = [] := by
        rw [List.filter_eq_nil_iff]
        intro c hc
        have h1 := htl c hc
        have h2 := hstart b hbmem
        simp only [beq_iff_eq]
        omega
      refine ⟨b, ?_⟩
      rw [get_artifacts_by_id, hart, ha2eq, List.filter_append, hfb, htlf,
        List.append_nil]
  have hkeys2 : (out'.map Prod.fst).Nodup := by
    rw [map_fst_of_map_eq O out' hsh]
    exact hkeys
  obtain ⟨g, hgeq, hgother, hginner⟩ :=
    group_dict stP eid out' [] harts hkeys2 (fun kv _ => rfl)
  obtain ⟨res, hatt, hresmap⟩ := attach_outputs_spec stP g O out' hOlen
    (by
      intro p hp
      have hplen := zip_len_of_map_eq O out' hsh p hp
      have hp2 : (p.2.1, p.2.2) ∈ out' := (List.of_mem_zip hp).2
      have hp2ne : p.2.2 ≠ [] := by
        have h1 : p.1.2 ≠ [] := hnonempty p.1 (List.of_mem_zip hp).1
        intro hnilp
        rw [hnilp] at hplen
        exact h1 (List.length_eq_zero.mp (by simpa using hplen.2))
      obtain ⟨inner, hlkp, hilen, hiidx⟩ := hginner p.2.1 p.2.2 hp2 hp2ne
      refine ⟨hplen.1, hplen.2, inner, ?_, ?_, ?_⟩
      · rw [hplen.1]
        exact hlkp
      · rw [hilen, hplen.2]
      · intro i hi
        obtain ⟨b, hlkb, hgb⟩ := hiidx i hi
        rw [get_artifacts_by_id] at hgb
        exact ⟨b, hlkb, (mem_filter_singleton_id hgb).2⟩)
  refine ⟨res, ?_, hresmap⟩
  rw [fetch_previous_result_artifacts, hevents,
    group_output_artifacts_append stP _ _ [] [] hskip, hgeq]
  dsimp only
  rw [hatt]


/-- C8: round trip — on a sane store, an execution registered with
register_execution and then published with publish_execution in state
COMPLETE can be replayed: fetch_previous_result_artifacts against the
published output shape and the fresh execution id succeeds and returns, for
every output name, artifacts whose ids are exactly the published ids in the
same index order (outputs that already carried persisted ids pass through
unchanged). Requires every output name to carry at least one artifact and
every already-persisted output to resolve to exactly one stored artifact. -/
theorem c8_round_trip
    (env : Env) (st : Store) (ep : Props) (pi : PipelineInfo)
    (ci : ComponentInfo) (ctxs : List Context)
    (input_dict O : List (String × List Artifact)) (eid : Int) (st2 : Store)
    (hreg : register_execution env st ep pi ci ctxs = .ok (eid, st2))
    (hwf : StoreWF st)
    (hin : ∀ kv ∈ input_dict, ∀ a ∈ kv.2, a.id ≠ 0)
    (hkeys : (O.map Prod.fst).Nodup)
    (hnonempty : ∀ kv ∈ O, kv.2 ≠ [])
    (hpresent : ∀ kv ∈ O, ∀ a ∈ kv.2, a.id ≠ 0 →
      ∃ b, get_artifacts_by_id st a.id = [b]) :
    ∃ out' stP,
      publish_execution st2 eid input_dict O EXECUTION_STATE_COMPLETE =
        .ok (out', stP) ∧
      out'.map (fun kv => (kv.1, kv.2.length)) =
        O.map (fun kv => (kv.1, kv.2.length)) ∧
      (∀ p ∈ O.zip out', ∀ q ∈ p.1.2.zip p.2.2, q.1.id ≠ 0 → q.2 = q.1) ∧
      ∃ res, fetch_previous_result_artifacts stP O eid = .ok (res, stP) ∧
        res.map (fun kv => (kv.1, kv.2.map Artifact.id)) =
          out'.map (fun kv => (kv.1, kv.2.map Artifact.id)) := by
  obtain ⟨hwf1, hwf2, hwf3, hwf4⟩ := hwf
  obtain ⟨ex, st1, hprep, heid, hexe2, heve2, hart2, hnid2⟩ :=
    register_execution_ok env st ep pi ci ctxs eid st2 hreg
  obtain ⟨hpe1, hpe2, hpe3, hpe4⟩ :=
    prepare_execution_spec env st _ ep pi ci ex st1 hprep
  have hpos2 : 0 < st2.next_id := by omega
  have heidge : st.next_id ≤ eid := by omega
  have hfil : st2.executions.filter (fun e2 => e2.id == eid) =
      [{ ex with id := eid }] := by
    have hnil : st.executions.filter (fun e2 => e2.id == eid) = [] := by
      rw [List.filter_eq_nil_iff]
      intro e he
      have := hwf2 e he
      simp only [beq_iff_eq]
      omega
    rw [hexe2, hpe1, List.filter_append, hnil, List.nil_append]
    simp
  rw [publish_execution, if_neg (by decide)]
  rw [collect_input_events_ok eid input_dict hin]
  dsimp only
  obtain ⟨out', stO, heqO, hsh, hposO, hleO, hexeO, heveO,
      ⟨tl, hartO, hbnd, hpw, hzip⟩, hnz⟩ :=
    publish_outputs_complete eid O st2 hpos2
  rw [heqO]
  dsimp only
  have hge : get_executions_by_id stO eid = [{ ex with id := eid }] := by
    rw [get_executions_by_id, hexeO]
    exact hfil
  rw [hge]
  dsimp only
  obtain ⟨hfe, hfa⟩ := finalize_events stO { ex with id := eid }
    EXECUTION_STATE_COMPLETE
    (dictEvents eid .INPUT input_dict ++ dictEvents eid .OUTPUT out')
  refine ⟨out', _, rfl, hsh, ?_, ?_⟩
  · intro p hp q hq hq1
    exact ((hzip p hp).2 q hq).1 hq1
  · refine fetch_after_publish _ eid input_dict O out' tl st st2.next_id
      (hfe.trans ?_) (hfa.trans ?_) ?_ ?_ ?_ ?_ hsh hkeys hnonempty hzip hpresent
    · rw [heveO, heve2, hpe2]
    · rw [hartO, hart2, hpe3]
    · intro ev hev
      have := hwf3 ev hev
      omega
    · intro b hb
      have := hwf4 b hb
      omega
    · intro b hb
      exact (hbnd b hb).1
    · have hp2 : (tl.map Artifact.id).Pairwise (fun x y => x ≠ y) := by
        rw [List.pairwise_map]
        exact hpw.imp ne_of_lt
      exact hp2


/-- The store produced by registering an execution of type CT (no declared
properties, no run id) on an empty store: execution id 2, type id 1. -/
def stReg : Store :=
  { artifacts := [],
    executions := [Execution.mk 2 1
      [("component_id", "c"), ("pipeline_root", "root"),
       ("pipeline_name", "p"), ("state", "new")]],
    events := [],
    contexts := [],
    context_types := [],
    execution_types := [ExecutionType.mk 1 "CT"
      [("component_id", .STRING), ("run_id", .STRING),
       ("pipeline_root", .STRING), ("pipeline_name", .STRING),
       ("state", .STRING)]],
    artifact_types := [],
    attributions := [],
    next_id := 3 }

/-- stReg after publishing with no output artifacts: only the execution
state flips to complete. -/
def stPubE : Store :=
  { stReg with
    executions := [Execution.mk 2 1
      [("state", "complete"), ("component_id", "c"),
       ("pipeline_root", "root"), ("pipeline_name", "p")]] }

/-- C8 counterexample: a registered execution published COMPLETE with an
output name holding no artifacts round-trips into a fetch failure — the
publish succeeds and emits no OUTPUT event for the empty name, so the
subsequent fetch_previous_result_artifacts on the same shape raises
"Unmatched output name from previous execution." instead of returning the
empty output list. -/
theorem c8_counterexample :
    register_execution env0 ({} : Store) [] pi0 ci0 [] = .ok (2, stReg) ∧
    publish_execution stReg 2 [] [("o", [])] EXECUTION_STATE_COMPLETE =
      .ok ([("o", [])], stPubE) ∧
    fetch_previous_result_artifacts stPubE [("o", [])] 2 =
      .error (.runtimeError "Unmatched output name from previous execution.",
        stPubE) :=
  ⟨rfl, rfl, rfl⟩

/-- C8 witness: the round trip on a freshly registered execution with one
id-less output artifact — publish COMPLETE succeeds and fetch returns one
artifact per slot with the published ids. -/
theorem c8_witness :
    ∃ out' stP,
      publish_execution stReg 2 [] [("o", [Artifact.mk 0 0 "T" ""])]
          EXECUTION_STATE_COMPLETE = .ok (out', stP) ∧
      out'.map (fun kv => (kv.1, kv.2.length)) =
        [("o", [Artifact.mk 0 0 "T" ""])].map (fun kv => (kv.1, kv.2.length)) ∧
      (∀ p ∈ ([("o", [Artifact.mk 0 0 "T" ""])] :
          List (String × List Artifact)).zip out',
        ∀ q ∈ p.1.2.zip p.2.2, q.1.id ≠ 0 → q.2 = q.1) ∧
      ∃ res, fetch_previous_result_artifacts stP
          [("o", [Artifact.mk 0 0 "T" ""])] 2 = .ok (res, stP) ∧
        res.map (fun kv => (kv.1, kv.2.map Artifact.id)) =
          out'.map (fun kv => (kv.1, kv.2.map Artifact.id)) :=
  c8_round_trip env0 {} [] pi0 ci0 [] []
    [("o", [Artifact.mk 0 0 "T" ""])] 2 stReg
    rfl
    (by decide)
    (fun kv h => absurd h (List.not_mem_nil kv))
    (by decide)
    (by
      intro kv h
      rcases List.mem_cons.mp h with h2 | h2
      · rw [h2]
        simp
      · exact absurd h2 (List.not_mem_nil kv))
    (by
      intro kv hkv a ha h0
      rcases List.mem_cons.mp hkv with h2 | h2
      · rw [h2] at ha
        rcases List.mem_cons.mp ha with h3 | h3
        · rw [h3] at h0
          exact absurd rfl h0
        · exact absurd h3 (List.not_mem_nil a)
      · exact absurd h2 (List.not_mem_nil kv))

end TfxMeta
